import Mathlib

/-!
Verification of the simple-hmac-auth repository: a shallow embedding of
the canonicalization, signing and server-side authentication code
(src/canonicalize.ts, src/sign.ts, src/Server.ts) together with models of
the Node.js library primitives they invoke (SHA-1 / SHA-256 / SHA-512,
HMAC, UTF-8 encoding), and theorems settling the frozen claims about the
natural-language specification.

Conventions of the embedding:
- JavaScript strings are Lean String values; byte sequences are List Nat
  with every element < 256.
- Machine words are Nat reduced with an explicit modulus (w 32 / w 64).
- JavaScript objects used as string-keyed dictionaries are association
  lists in insertion order, which matches the enumeration order
  Object.entries gives to non-integer string keys.
- Thrown JavaScript errors are the error branch of Except.
-/

/-- Truncate a Nat to a machine word of the given bit width. -/
def w (bits x : Nat) : Nat := x % 2 ^ bits

/-- Right rotation of an x already reduced to the given width. -/
def rotr (bits x n : Nat) : Nat := w bits ((x >>> n) ||| (x <<< (bits - n)))

/-- Left rotation within 32 bits, used by SHA-1. -/
def rotl32 (x n : Nat) : Nat := w 32 ((x <<< n) ||| (x >>> (32 - n)))

/-- Big-endian byte rendering of n into exactly `count` bytes. -/
def beBytes (count n : Nat) : List Nat :=
  (List.range count).map (fun i => (n >>> (8 * (count - 1 - i))) % 256)

/-- Big-endian word value of a byte list. -/
def beWord (bytes : List Nat) : Nat := bytes.foldl (fun acc b => acc * 256 + b) 0

/-- Split a list into consecutive chunks of the given size (fuel-based). -/
def chunksAux (size : Nat) : Nat → List Nat → List (List Nat)
  | 0, _ => []
  | _ + 1, [] => []
  | fuel + 1, l => l.take size :: chunksAux size fuel (l.drop size)

/-- Split a byte list into consecutive chunks of the given size. -/
def chunks (size : Nat) (l : List Nat) : List (List Nat) := chunksAux size l.length l

/-- UTF-8 encoding of one Unicode code point (standard RFC 3629 layout). -/
def utf8EncodeChar (c : Char) : List Nat :=
  let n := c.toNat
  if n < 128 then [n]
  else if n < 2048 then [192 + n / 64, 128 + n % 64]
  else if n < 65536 then [224 + n / 4096, 128 + (n / 64) % 64, 128 + n % 64]
  else [240 + n / 262144, 128 + (n / 4096) % 64, 128 + (n / 64) % 64, 128 + n % 64]

/-- UTF-8 bytes of a string, as Node's Buffer.from(s, 'utf8') produces. -/
def utf8Bytes (s : String) : List Nat := (s.data.map utf8EncodeChar).flatten

/-- Lowercase hexadecimal digit for a value below 16. -/
def hexDigit (n : Nat) : Char := if n < 10 then Char.ofNat (48 + n) else Char.ofNat (87 + n)

/-- Lowercase hexadecimal rendering of a byte list, two digits per byte,
as Node's digest('hex') produces. -/
def toHex (bs : List Nat) : String :=
  String.mk ((bs.map (fun b => [hexDigit (b / 16), hexDigit (b % 16)])).flatten)

/-! ### SHA-2 (FIPS 180-4), generic over the 32-bit and 64-bit variants -/

/-- Round constants of SHA-256: first 32 bits of the fractional parts of
the cube roots of the first 64 primes. -/
def sha256K : List Nat :=
  [1116352408, 1899447441, 3049323471, 3921009573,
   961987163, 1508970993, 2453635748, 2870763221,
   3624381080, 310598401, 607225278, 1426881987,
   1925078388, 2162078206, 2614888103, 3248222580,
   3835390401, 4022224774, 264347078, 604807628,
   770255983, 1249150122, 1555081692, 1996064986,
   2554220882, 2821834349, 2952996808, 3210313671,
   3336571891, 3584528711, 113926993, 338241895,
   666307205, 773529912, 1294757372, 1396182291,
   1695183700, 1986661051, 2177026350, 2456956037,
   2730485921, 2820302411, 3259730800, 3345764771,
   3516065817, 3600352804, 4094571909, 275423344,
   430227734, 506948616, 659060556, 883997877,
   958139571, 1322822218, 1537002063, 1747873779,
   1955562222, 2024104815, 2227730452, 2361852424,
   2428436474, 2756734187, 3204031479, 3329325298]

/-- Initial hash state of SHA-256. -/
def sha256H0 : List Nat :=
  [1779033703, 3144134277, 1013904242, 2773480762,
   1359893119, 2600822924, 528734635, 1541459225]

/-- Round constants of SHA-512: first 64 bits of the fractional parts of
the cube roots of the first 80 primes. -/
def sha512K : List Nat :=
  [4794697086780616226, 8158064640168781261, 13096744586834688815,
   16840607885511220156, 4131703408338449720, 6480981068601479193,
   10538285296894168987, 12329834152419229976, 15566598209576043074,
   1334009975649890238, 2608012711638119052, 6128411473006802146,
   8268148722764581231, 9286055187155687089, 11230858885718282805,
   13951009754708518548, 16472876342353939154, 17275323862435702243,
   1135362057144423861, 2597628984639134821, 3308224258029322869,
   5365058923640841347, 6679025012923562964, 8573033837759648693,
   10970295158949994411, 12119686244451234320, 12683024718118986047,
   13788192230050041572, 14330467153632333762, 15395433587784984357,
   489312712824947311, 1452737877330783856, 2861767655752347644,
   3322285676063803686, 5560940570517711597, 5996557281743188959,
   7280758554555802590, 8532644243296465576, 9350256976987008742,
   10552545826968843579, 11727347734174303076, 12113106623233404929,
   14000437183269869457, 14369950271660146224, 15101387698204529176,
   15463397548674623760, 17586052441742319658, 1182934255886127544,
   1847814050463011016, 2177327727835720531, 2830643537854262169,
   3796741975233480872, 4115178125766777443, 5681478168544905931,
   6601373596472566643, 7507060721942968483, 8399075790359081724,
   8693463985226723168, 9568029438360202098, 10144078919501101548,
   10430055236837252648, 11840083180663258601, 13761210420658862357,
   14299343276471374635, 14566680578165727644, 15097957966210449927,
   16922976911328602910, 17689382322260857208, 500013540394364858,
   748580250866718886, 1242879168328830382, 1977374033974150939,
   2944078676154940804, 3659926193048069267, 4368137639120453308,
   4836135668995329356, 5532061633213252278, 6448918945643986474,
   6902733635092675308, 7801388544844847127]

/-- Initial hash state of SHA-512. -/
def sha512H0 : List Nat :=
  [7640891576956012808, 13503953896175478587, 4354685564936845355,
   11912009170470909681, 5840696475078001361, 11170449401992604703,
   2270897969802886507, 6620516959819538809]

/-- The parameters distinguishing the SHA-2 family members. -/
structure Sha2Params where
  bits : Nat
  K : List Nat
  H0 : List Nat
  sg0a : Nat
  sg0b : Nat
  sg0c : Nat
  sg1a : Nat
  sg1b : Nat
  sg1c : Nat
  sm0a : Nat
  sm0b : Nat
  sm0c : Nat
  sm1a : Nat
  sm1b : Nat
  sm1c : Nat

/-- SHA-256 parameters. -/
def sha256P : Sha2Params :=
  { bits := 32, K := sha256K, H0 := sha256H0,
    sg0a := 7, sg0b := 18, sg0c := 3, sg1a := 17, sg1b := 19, sg1c := 10,
    sm0a := 2, sm0b := 13, sm0c := 22, sm1a := 6, sm1b := 11, sm1c := 25 }

/-- SHA-512 parameters. -/
def sha512P : Sha2Params :=
  { bits := 64, K := sha512K, H0 := sha512H0,
    sg0a := 1, sg0b := 8, sg0c := 7, sg1a := 19, sg1b := 61, sg1c := 6,
    sm0a := 28, sm0b := 34, sm0c := 39, sm1a := 14, sm1b := 18, sm1c := 41 }

/-- Extend the 16 message words to the full schedule. The accumulator is
kept in reverse order so the most recent word is at the head. -/
def sha2ScheduleAux (p : Sha2Params) : Nat → List Nat → List Nat
  | 0, acc => acc.reverse
  | n + 1, acc =>
    let w15 := acc.getD 14 0
    let w2 := acc.getD 1 0
    let s0 := rotr p.bits w15 p.sg0a ^^^ rotr p.bits w15 p.sg0b ^^^ (w15 >>> p.sg0c)
    let s1 := rotr p.bits w2 p.sg1a ^^^ rotr p.bits w2 p.sg1b ^^^ (w2 >>> p.sg1c)
    let nw := w p.bits (acc.getD 15 0 + s0 + acc.getD 6 0 + s1)
    sha2ScheduleAux p n (nw :: acc)

/-- Full message schedule from the 16 block words. -/
def sha2Schedule (p : Sha2Params) (ws : List Nat) : List Nat :=
  sha2ScheduleAux p (p.K.length - 16) ws.reverse

/-- One SHA-2 compression round; the state is the list [a,b,c,d,e,f,g,h]. -/
def sha2Round (p : Sha2Params) (st : List Nat) (kw : Nat × Nat) : List Nat :=
  match st with
  | [a, b, c, d, e, f, g, h] =>
    let S1 := rotr p.bits e p.sm1a ^^^ rotr p.bits e p.sm1b ^^^ rotr p.bits e p.sm1c
    let ch := (e &&& f) ^^^ ((e ^^^ (2 ^ p.bits - 1)) &&& g)
    let temp1 := w p.bits (h + S1 + ch + kw.1 + kw.2)
    let S0 := rotr p.bits a p.sm0a ^^^ rotr p.bits a p.sm0b ^^^ rotr p.bits a p.sm0c
    let maj := (a &&& b) ^^^ (a &&& c) ^^^ (b &&& c)
    let temp2 := w p.bits (S0 + maj)
    [w p.bits (temp1 + temp2), a, b, c, w p.bits (d + temp1), e, f, g]
  | other => other

/-- Compress one message block into the running hash state. -/
def sha2Block (p : Sha2Params) (H : List Nat) (block : List Nat) : List Nat :=
  let ws := sha2Schedule p ((chunks (p.bits / 8) block).map beWord)
  let st := (p.K.zip ws).foldl (sha2Round p) H
  (H.zip st).map (fun ab => w p.bits (ab.1 + ab.2))

/-- Merkle-Damgard padding: 0x80, zeros, and the big-endian bit length. -/
def sha2Pad (blockBytes lenBytes : Nat) (msg : List Nat) : List Nat :=
  let padLen := (blockBytes - ((msg.length + 1 + lenBytes) % blockBytes)) % blockBytes
  msg ++ [128] ++ List.replicate padLen 0 ++ beBytes lenBytes (8 * msg.length)

/-- A SHA-2 digest over a byte list, as a byte list. -/
def sha2 (p : Sha2Params) (msg : List Nat) : List Nat :=
  let blockBytes := 2 * p.bits
  let padded := sha2Pad blockBytes (p.bits / 4) msg
  let Hf := (chunks blockBytes padded).foldl (sha2Block p) p.H0
  (Hf.map (beBytes (p.bits / 8))).flatten

/-- SHA-256 digest of a byte list. -/
def sha256 (msg : List Nat) : List Nat := sha2 sha256P msg

/-- SHA-512 digest of a byte list. -/
def sha512 (msg : List Nat) : List Nat := sha2 sha512P msg

/-! ### SHA-1 (FIPS 180-4) -/

/-- SHA-1 round function, depending on the round index quarter. -/
def sha1F (i b c d : Nat) : Nat :=
  if i < 20 then (b &&& c) ||| ((b ^^^ 4294967295) &&& d)
  else if i < 40 then b ^^^ c ^^^ d
  else if i < 60 then (b &&& c) ||| (b &&& d) ||| (c &&& d)
  else b ^^^ c ^^^ d

/-- SHA-1 round constants, per round index quarter. -/
def sha1K (i : Nat) : Nat :=
  if i < 20 then 1518500249
  else if i < 40 then 1859775393
  else if i < 60 then 2400959708
  else 3395469782

/-- Extend the 16 block words to the 80-word SHA-1 schedule; the
accumulator is reversed, most recent word first. -/
def sha1ScheduleAux : Nat → List Nat → List Nat
  | 0, acc => acc.reverse
  | n + 1, acc =>
    let nw := rotl32 (acc.getD 2 0 ^^^ acc.getD 7 0 ^^^ acc.getD 13 0 ^^^ acc.getD 15 0) 1
    sha1ScheduleAux n (nw :: acc)

/-- One SHA-1 round; state is [a,b,c,d,e], input is (round index, word). -/
def sha1Round (st : List Nat) (iw : Nat × Nat) : List Nat :=
  match st with
  | [a, b, c, d, e] =>
    [w 32 (rotl32 a 5 + sha1F iw.1 b c d + e + sha1K iw.1 + iw.2), a, rotl32 b 30, c, d]
  | other => other

/-- Compress one 64-byte block into the running SHA-1 state. -/
def sha1Block (H : List Nat) (block : List Nat) : List Nat :=
  let ws := sha1ScheduleAux 64 ((chunks 4 block).map beWord).reverse
  let st := ((List.range 80).zip ws).foldl sha1Round H
  (H.zip st).map (fun ab => w 32 (ab.1 + ab.2))

/-- SHA-1 digest of a byte list. -/
def sha1 (msg : List Nat) : List Nat :=
  let padded := sha2Pad 64 8 msg
  let Hf := (chunks 64 padded).foldl sha1Block
    [1732584193, 4023233417, 2562383102, 271733878, 3285377520]
  (Hf.map (beBytes 4)).flatten

/-! ### HMAC (RFC 2104), as Node's crypto.createHmac computes it -/

/-- HMAC over byte lists, generic in the hash and its block size. -/
def hmacBytes (hash : List Nat → List Nat) (blockBytes : Nat) (key msg : List Nat) : List Nat :=
  let k0 := if blockBytes < key.length then hash key else key
  let kp := k0 ++ List.replicate (blockBytes - k0.length) 0
  hash ((kp.map (fun b => b ^^^ 92)) ++ hash ((kp.map (fun b => b ^^^ 54)) ++ msg))

/-- crypto.createHmac(algorithm, secret).update(message).digest('hex') for
the three algorithm names this library permits; both strings are encoded
as UTF-8, matching Node's default string encoding. -/
def hmacHex (algorithm secret message : String) : String :=
  if algorithm = "sha1" then
    toHex (hmacBytes sha1 64 (utf8Bytes secret) (utf8Bytes message))
  else if algorithm = "sha256" then
    toHex (hmacBytes sha256 64 (utf8Bytes secret) (utf8Bytes message))
  else if algorithm = "sha512" then
    toHex (hmacBytes sha512 128 (utf8Bytes secret) (utf8Bytes message))
  else ""

/-! ### Embedding of src/canonicalize.ts -/

/-- JavaScript String.prototype.toLowerCase restricted to ASCII letters,
the only case pairs that matter for matching the ASCII header whitelist. -/
def jsToLowerChar (c : Char) : Char :=
  if 65 <= c.toNat && c.toNat <= 90 then Char.ofNat (c.toNat + 32) else c

/-- key.toLowerCase() on a header name. -/
def jsToLower (s : String) : String := String.mk (s.data.map jsToLowerChar)

/-- JavaScript String.prototype.toUpperCase restricted to ASCII letters. -/
def jsToUpperChar (c : Char) : Char :=
  if 97 <= c.toNat && c.toNat <= 122 then Char.ofNat (c.toNat - 32) else c

/-- method.toUpperCase(). -/
def jsToUpper (s : String) : String := String.mk (s.data.map jsToUpperChar)

/-- Whitespace stripped by String.prototype.trim (ASCII portion). -/
def jsWhite (c : Char) : Bool := c = ' ' || c = '\t' || c = '\n' || c = '\r'

/-- value.trim(). -/
def jsTrim (s : String) : String :=
  String.mk (((s.data.dropWhile jsWhite).reverse.dropWhile jsWhite).reverse)

/-- The header whitelist of src/canonicalize.ts: only these headers are
signed. -/
def headerWhitelist : List String := ["authorization", "date", "content-length", "content-type"]

/-- Property assignment obj[k] = v on a JavaScript object modelled as an
association list: an existing key keeps its position and gets the new
value, a new key is appended. -/
def jsObjectSet (l : List (String × String)) (k v : String) : List (String × String) :=
  if l.any (fun p => p.1 = k) then
    l.map (fun p => if p.1 = k then (k, v) else p)
  else
    l ++ [(k, v)]

/-- Property read obj[k] for a key known to be present; defaults to ""
when absent. -/
def jsObjectGet (l : List (String × String)) (k : String) : String :=
  ((l.find? (fun p => p.1 = k)).map Prod.snd).getD ""

/-- One iteration of the cleanHeaders loop of canonicalize: lower-case
the key, skip it unless whitelisted, skip a content-length of "0", and
otherwise store it into the accumulating object. -/
def cleanHeadersStep (acc : List (String × String)) (kv : String × String) :
    List (String × String) :=
  let key := jsToLower kv.1
  if !headerWhitelist.contains key then acc
  else if key = "content-length" && kv.2 = "0" then acc
  else jsObjectSet acc key kv.2

/-- The cleanHeaders loop of canonicalize, over a fresh object. -/
def cleanHeaders (headers : List (String × String)) : List (String × String) :=
  headers.foldl cleanHeadersStep []

/-- Lexicographic at-most comparison of character lists by code point,
the comparison the default JavaScript Array sort applies to strings
(identical to code-unit order on the ASCII header names sorted here). -/
def charListLeb : List Char → List Char → Bool
  | [], _ => true
  | _ :: _, [] => false
  | a :: as, b :: bs =>
    if a < b then true
    else if b < a then false
    else charListLeb as bs

/-- The string order headerKeys.sort() sorts by. -/
def strLe (a b : String) : Prop := charListLeb a.data b.data = true

instance (a b : String) : Decidable (strLe a b) :=
  inferInstanceAs (Decidable (charListLeb a.data b.data = true))

/-- headerKeys.sort(): sort the keys lexicographically; insertion sort
realizes the comparison-based sort. -/
def jsSortStrings (l : List String) : List String := List.insertionSort strLe l

/-- canonicalize from src/canonicalize.ts. The optional queryString and
data parameters are Options; none models the undefined/null arguments
the source replaces with ''. The headers object is an association list
in insertion order. The body digest models
crypto.createHash('sha256').update(data, 'utf8').digest('hex'). -/
def canonicalize (method uri : String) (queryString : Option String)
    (headers : List (String × String)) (data : Option String) : String :=
  let method := jsToUpper method
  let queryString := queryString.getD ""
  let data := data.getD ""
  let clean := cleanHeaders headers
  let headerKeys := jsSortStrings (clean.map Prod.fst)
  let headerString :=
    String.intercalate "\n" (headerKeys.map (fun key => key ++ ":" ++ jsTrim (jsObjectGet clean key)))
  let dataHash := toHex (sha256 (utf8Bytes data))
  method ++ "\n" ++ uri ++ "\n" ++ queryString ++ "\n" ++ headerString ++ "\n" ++ dataHash

/-! ### Embedding of src/sign.ts -/

/-- The permitted algorithms list of src/sign.ts. -/
def algorithms : List String := ["sha1", "sha256", "sha512"]

/-- sign from src/sign.ts: throws (error branch) on an unsupported
algorithm, otherwise returns the hex HMAC of the canonical string keyed
by the secret. -/
def sign (canonical secret algorithm : String) : Except String String :=
  if !algorithms.contains algorithm then
    Except.error ("Invalid algorithm: \x22" ++ algorithm ++ "\x22")
  else
    Except.ok (hmacHex algorithm secret canonical)

/-! ### Embedding of the server (src/Server.ts, SimpleHMACAuth.authenticate) -/

/-- A thrown JavaScript error as authenticate produces or relays it: a
message, the optional code property, and the optional time property
(DATE_HEADER_INVALID carries now; the source stores now.toUTCString(),
a rendering of the same instant, which we keep as the millisecond value).
The free-form details property of some errors is not modelled. -/
structure JsError where
  message : String
  code : Option String
  time : Option Int
deriving DecidableEq

/-- The { apiKey, secret, signature } object a successful authenticate
resolves with. -/
structure AuthSuccess where
  apiKey : String
  secret : String
  signature : String
deriving DecidableEq

/-- How the injected secretForKey collaborator behaves on the one call
authenticate makes: plain return value, promise settlement, callback
invocation, or never answering before the internal timer fires.
undefined values and absent errors are none. -/
inductive SecretLookup where
  | direct (value : Option String)
  | promiseResolved (value : Option String)
  | promiseRejected (error : Option JsError)
  | callbackInvoked (error : Option JsError) (secret : Option String)
  | timedOut
deriving DecidableEq

/-- The settlement of the promise _secretForKey returns, per calling
convention. The callback path rejects with the given error whenever an
error is passed or the secret is undefined; the timeout path rejects
with the AuthError carrying INTERNAL_ERROR_SECRET_TIMEOUT. -/
def secretForKeyOutcome (apiKey : String) (lookup : SecretLookup) :
    Except (Option JsError) (Option String) :=
  match lookup with
  | .direct v => Except.ok v
  | .promiseResolved v => Except.ok v
  | .promiseRejected e => Except.error e
  | .callbackInvoked e s =>
    if e.isSome || s.isNone then Except.error e else Except.ok s
  | .timedOut =>
    Except.error (some
      { message := "Internal failure while attempting to locate secret for API key \x22" ++
          apiKey ++ "\x22: secretForKey has timed out",
        code := some "INTERNAL_ERROR_SECRET_TIMEOUT", time := none })

/-- The try/catch around the _secretForKey await in authenticate: a
rejection with undefined becomes a fresh AuthError coded
INTERNAL_ERROR_SECRET_DISCOVERY; a rejection whose error has no code
gets that code attached; other rejections are rethrown unchanged. -/
def secretLookupStep (apiKey : String) (lookup : SecretLookup) :
    Except JsError (Option String) :=
  match secretForKeyOutcome apiKey lookup with
  | Except.ok v => Except.ok v
  | Except.error none =>
    Except.error
      { message := "Internal failure while attempting to locate secret for API key \x22" ++
          apiKey ++ "\x22",
        code := some "INTERNAL_ERROR_SECRET_DISCOVERY", time := none }
  | Except.error (some e) =>
    if e.code = none then
      Except.error { e with code := some "INTERNAL_ERROR_SECRET_DISCOVERY" }
    else
      Except.error e

/-- JavaScript String.prototype.split on a one-character separator, on
character lists: an empty string yields one empty piece, and every
separator occurrence opens a new piece. -/
def jsSplitChars (sep : Char) : List Char → List (List Char)
  | [] => [[]]
  | c :: cs =>
    match jsSplitChars sep cs with
    | r :: rs => if c = sep then [] :: r :: rs else (c :: r) :: rs
    | [] => [[c]]

/-- s.split(sep) for a one-character separator string. -/
def jsSplit (s : String) (sep : Char) : List String :=
  (jsSplitChars sep s.data).map String.mk

/-- _apiKeyForRequest: with an authorization header present, the key is
the second space-delimited token when there are at least two tokens;
only with the header absent entirely is the parsed query's apiKey used. -/
def apiKeyForRequest (authorization : Option String) (queryApiKey : Option String) :
    Option String :=
  match authorization with
  | some a =>
    let components := jsSplit a ' '
    if 1 < components.length then components.get? 1 else none
  | none => queryApiKey

/-- Read one header of the request. Node lowercases incoming header
names, so the embedding's header lists use lowercase names. -/
def headerGet (headers : List (String × String)) (k : String) : Option String :=
  (headers.find? (fun p => p.1 = k)).map Prod.snd

/-! ### IEEE-754 binary64 model for the timestamp arithmetic

JavaScript numbers are binary64 doubles: every arithmetic operation
computes the exact result and rounds it to 53 significant bits, to the
nearest representable value with ties to even. The model below performs
that rounding on exact rationals, entirely in integer arithmetic.
Overflow to infinity and subnormal underflow are not modelled; every
quantity the server's timestamp check computes lies far inside the
normal range. -/

/-- Number of binary digits of n (fuel-based structural recursion). -/
def bitlenAux : Nat → Nat → Nat
  | 0, _ => 0
  | _ + 1, 0 => 0
  | fuel + 1, n + 1 => bitlenAux fuel ((n + 1) / 2) + 1

/-- Number of binary digits of n, so 2^(bitlen n - 1) ≤ n < 2^(bitlen n)
for positive n. -/
def bitlen (n : Nat) : Nat := bitlenAux n n

/-- Whether a/b < 2^k, for positive naturals a and b, decided in
integers. -/
def qltPow2 (a b : Nat) (k : Int) : Bool :=
  match k with
  | .ofNat n => a < b * 2 ^ n
  | .negSucc n => a * 2 ^ (n + 1) < b

/-- Floor of the base-2 logarithm of a/b, for positive naturals: the
bit-length difference is off by at most one, corrected by one
comparison. -/
def qlog2 (a b : Nat) : Int :=
  if qltPow2 a b ((bitlen a : Int) - (bitlen b : Int)) then
    (bitlen a : Int) - (bitlen b : Int) - 1
  else
    (bitlen a : Int) - (bitlen b : Int)

/-- Exponent of the least significant mantissa bit when a/b is rounded
to 53 significant bits: the mantissa a/b · 2^(-rndE) lies in
[2^52, 2^53). -/
def rndE (a b : Nat) : Int := qlog2 a b - 52

/-- Numerator of the mantissa fraction a/b · 2^(-rndE). -/
def rndNum (a b : Nat) : Nat :=
  if 0 ≤ rndE a b then a else a * 2 ^ (-rndE a b).toNat

/-- Denominator of the mantissa fraction a/b · 2^(-rndE). -/
def rndDen (a b : Nat) : Nat :=
  if 0 ≤ rndE a b then b * 2 ^ (rndE a b).toNat else b

/-- The 53-bit mantissa of a/b rounded to nearest, ties to even: the
integer part of the mantissa fraction, bumped when the remainder
exceeds one half, or equals one half and the integer part is odd. -/
def rndM (a b : Nat) : Nat :=
  if rndDen a b < 2 * (rndNum a b % rndDen a b) then rndNum a b / rndDen a b + 1
  else if 2 * (rndNum a b % rndDen a b) < rndDen a b then rndNum a b / rndDen a b
  else if rndNum a b / rndDen a b % 2 = 0 then rndNum a b / rndDen a b
  else rndNum a b / rndDen a b + 1

/-- The positive rational a/b rounded to the nearest binary64 value
(ties to even), as an exact rational: the mantissa scaled back by
2^rndE. -/
def rnd53Pos (a b : Nat) : ℚ :=
  if 0 ≤ rndE a b then ((rndM a b * 2 ^ (rndE a b).toNat : Nat) : ℚ)
  else mkRat (rndM a b) (2 ^ (-rndE a b).toNat)

/-- A rational rounded to the nearest binary64 value, ties to even. -/
def rnd53 (q : ℚ) : ℚ :=
  if q.num = 0 then 0
  else if q.num < 0 then -rnd53Pos q.num.natAbs q.den
  else rnd53Pos q.num.natAbs q.den

/-- Exact difference of two rationals built through numerators and
denominators (a kernel-evaluable form of subtraction). -/
def ratSub (x y : ℚ) : ℚ :=
  mkRat (x.num * (y.den : Int) - y.num * (x.den : Int)) (x.den * y.den)

/-- The JavaScript double division x / 1000 of an integer timestamp. -/
def fdiv1000 (x : Int) : ℚ := rnd53 (mkRat x 1000)

/-- The JavaScript double subtraction x - y. -/
def fsub64 (x y : ℚ) : ℚ := rnd53 (ratSub x y)

/-- The timestamp-freshness condition of authenticate:
(now.getTime()/1000) - (requestTime.getTime()/1000) > skew/1000, with
each JavaScript division and the subtraction rounded to binary64 as the
engine computes them, and the comparison exact (as it is on doubles).
An unparseable date header gives an invalid Date whose getTime() is
NaN; every comparison against NaN is false, so requestTime = none never
triggers the rejection. -/
def dateTooOld (requestTime : Option Int) (now skew : Int) : Bool :=
  match requestTime with
  | none => false
  | some t =>
    decide (fdiv1000 skew < fsub64 (fdiv1000 now) (fdiv1000 t))

/-- Parsing of the signature header in authenticate: split on spaces;
fewer than three tokens or a wrong protocol tag is
SIGNATURE_HEADER_INVALID, an unsupported algorithm token is
HMAC_ALGORITHM_INVALID, and otherwise the three tokens are returned. -/
def parseSignatureHeader (sig : String) : Except JsError (String × String × String) :=
  let signatureComponents := jsSplit sig ' '
  if signatureComponents.length < 3 then
    Except.error
      { message := "Signature header is improperly formatted: \x22" ++ sig ++ "\x22",
        code := some "SIGNATURE_HEADER_INVALID", time := none }
  else
    let protocol := signatureComponents.getD 0 ""
    let algorithm := signatureComponents.getD 1 ""
    let signature := signatureComponents.getD 2 ""
    if protocol != "simple-hmac-auth" then
      Except.error
        { message := "Signature header included unsupported protocol version: \x22" ++
            protocol ++ "\x22",
          code := some "SIGNATURE_HEADER_INVALID", time := none }
    else if !algorithms.contains algorithm then
      Except.error
        { message := "Authorization header send invalid algorithm: \x22" ++ algorithm ++ "\x22",
          code := some "HMAC_ALGORITHM_INVALID", time := none }
    else
      Except.ok (protocol, algorithm, signature)

/-- The inbound request as authenticate consumes it: method, the
pathname and raw query component url.parse extracts from request.url,
the header object, and the apiKey field querystring.parse finds in the
raw query (none when absent). -/
structure AuthRequest where
  method : String
  pathname : String
  query : Option String
  headers : List (String × String)
  queryApiKey : Option String

/-- The per-call environment of authenticate: the server clock reading
taken at the freshness check, the configured permittedTimestampSkew,
the behavior of the JavaScript Date parser on header strings (none for
an invalid date), and the secretForKey collaborator's behavior. -/
structure AuthEnv where
  now : Int
  permittedTimestampSkew : Int
  parseDate : String → Option Int
  lookup : SecretLookup

/-- The tail of authenticate from the signature-header parse on:
parse the signature header, rebuild the canonical string from the
request, recompute the HMAC (sign cannot throw here because the
algorithm was just checked against the permitted list, so the
recomputed signature is hmacHex directly) and compare. -/
def signatureStep (_env : AuthEnv) (req : AuthRequest) (data : String)
    (apiKey secret sigHeader : String) : Except JsError AuthSuccess :=
  match parseSignatureHeader sigHeader with
  | Except.error e => Except.error e
  | Except.ok (_, algorithm, signature) =>
    let canonical := canonicalize req.method req.pathname req.query req.headers (some data)
    let calculatedSignature := hmacHex algorithm secret canonical
    if signature != calculatedSignature then
      Except.error { message := "Signature is invalid.", code := some "SIGNATURE_INVALID", time := none }
    else
      Except.ok { apiKey := apiKey, secret := secret, signature := signature }

/-- The middle of authenticate once a secret is in hand: presence of the
signature and date headers, then the timestamp-freshness rejection
(which stores the current server time on the thrown error), then the
signature step. -/
def headerChecksStep (env : AuthEnv) (req : AuthRequest) (data : String)
    (apiKey secret : String) : Except JsError AuthSuccess :=
  match headerGet req.headers "signature" with
  | none =>
    Except.error { message := "Missing signature. Please sign all incoming requests with the 'signature' header.",
                   code := some "SIGNATURE_HEADER_MISSING", time := none }
  | some sigHeader =>
    match headerGet req.headers "date" with
    | none =>
      Except.error { message := "Missing timestamp. Please timestamp all incoming requests by including 'date' header.",
                     code := some "DATE_HEADER_MISSING", time := none }
    | some dateHeader =>
      if dateTooOld (env.parseDate dateHeader) env.now env.permittedTimestampSkew then
        Except.error { message := "Timestamp is too old. Recieved: \x22" ++ dateHeader ++ "\x22",
                       code := some "DATE_HEADER_INVALID", time := some env.now }
      else
        signatureStep env req data apiKey secret sigHeader

/-- authenticate's thrown-or-resolved outcome: API key extraction,
secret lookup, then the header, freshness and signature checks. -/
def authResult (env : AuthEnv) (req : AuthRequest) (data : String) :
    Except JsError AuthSuccess :=
  match apiKeyForRequest (headerGet req.headers "authorization") req.queryApiKey with
  | none => Except.error { message := "Missing API Key", code := some "API_KEY_MISSING", time := none }
  | some apiKey =>
    match secretLookupStep apiKey env.lookup with
    | Except.error e => Except.error e
    | Except.ok none =>
      Except.error { message := "Unrecognized API key: " ++ apiKey,
                     code := some "API_KEY_UNRECOGNIZED", time := none }
    | Except.ok (some secret) => headerChecksStep env req data apiKey secret

/-- authenticate together with the request.authenticated flag: the flag
is assigned false before any validation step runs and is reassigned
true only immediately before the successful resolution, so the pair
holds the outcome and the final flag value. -/
def authenticate (env : AuthEnv) (req : AuthRequest) (data : String) :
    Except JsError AuthSuccess × Bool :=
  match authResult env req data with
  | Except.ok s => (Except.ok s, true)
  | Except.error e => (Except.error e, false)

/-! ### Embedding of the client's header construction (src/Client.ts) -/

/-- Object spread { ...base, ...extra }: every binding of extra is
assigned over base in order. -/
def jsObjectMerge (base extra : List (String × String)) : List (String × String) :=
  extra.foldl (fun acc kv => jsObjectSet acc kv.1 kv.2) base

/-- The Client constructor default for the useDateHeader setting: false
whenever the caller did not supply a boolean. -/
def defaultUseDateHeader : Option Bool → Bool
  | some b => b
  | none => false

/-- The header-construction prefix of Client.request: merge settings
headers with call headers, set the authorization header, then set the
timestamp header, whose NAME is 'date' only when useDateHeader is true
and 'timestamp' otherwise. nowUTC stands for new Date().toUTCString(). -/
def clientBuildHeaders (settingsHeaders callHeaders : Option (List (String × String)))
    (apiKey : String) (useDateHeader : Bool) (nowUTC : String) : List (String × String) :=
  let headers :=
    match settingsHeaders, callHeaders with
    | some s, some c => jsObjectMerge s c
    | none, some c => c
    | some s, none => s
    | none, none => []
  let headers := jsObjectSet headers "authorization" ("api-key " ++ apiKey)
  if useDateHeader = true then
    jsObjectSet headers "date" nowUTC
  else
    jsObjectSet headers "timestamp" nowUTC

/-! ### Claim theorems -/

set_option maxRecDepth 100000

/-- C1: canonicalize on the spec's worked example - POST /v1/items/ with
the five listed headers and the 13-byte JSON body - produces exactly the
expected canonical string; the non-whitelisted x-ignored header
contributes no line. -/
theorem C1_canonicalize_worked_example :
    canonicalize "POST" "/v1/items/" (some "?test=true&yes=affirmative")
      [("authorization", "api-key SAMPLE_API_KEY"),
       ("date", "Tue, 20 Apr 2016 18:48:24 GMT"),
       ("content-type", "application/json"),
       ("content-length", "13"),
       ("x-ignored", "x")]
      (some "\x7b\x22test\x22:true\x7d") =
    "POST\n/v1/items/\n?test=true&yes=affirmative\nauthorization:api-key SAMPLE_API_KEY\ncontent-length:13\ncontent-type:application/json\ndate:Tue, 20 Apr 2016 18:48:24 GMT\n6fd977db9b2afe87a9ceee48432881299a6aaf83d935fbbe83007660287f9c2e" := by
  rfl

/-- C5: sign succeeds exactly on the three permitted algorithms, on which
it returns the lowercase-hex HMAC of the canonical string keyed by the
secret (pinned by the standard empty-key/empty-message HMAC vectors of
all three digests), and in particular sign("", "", "sha256") is the
claimed digest. -/
theorem C5_sign_algorithm_gating :
    (∀ c s a, (sign c s a).isOk = algorithms.contains a) ∧
    (∀ c s, sign c s "sha1" = Except.ok (hmacHex "sha1" s c)) ∧
    (∀ c s, sign c s "sha256" = Except.ok (hmacHex "sha256" s c)) ∧
    (∀ c s, sign c s "sha512" = Except.ok (hmacHex "sha512" s c)) ∧
    sign "" "" "sha256" =
      Except.ok "b613679a0814d9ec772f95d778c35fc5ff1697c493715653c6c712144292c5ad" ∧
    sign "" "" "sha1" =
      Except.ok "fbdb1d1b18aa6c08324b7d64b71fb76370690e1d" ∧
    sign "" "" "sha512" =
      Except.ok "b936cee86c9f87aa5d3c6f2e84cb5a4239a5fe50480a6ec66b70ab5b1f4ac6730c6c515421b327ec1d69402e53dfb49ad7381eb067b338fd7b0cb22247225d47" := by
  refine ⟨?_, ?_, ?_, ?_, ?_, ?_, ?_⟩
  · intro c s a
    unfold sign
    cases algorithms.contains a
    · rfl
    · rfl
  · intro c s; rfl
  · intro c s; rfl
  · intro c s; rfl
  · rfl
  · rfl
  · rfl

/-- C7: with useDateHeader left unset the Client constructor defaults it
to false, and the request builder then names the timestamp header
'timestamp', not 'date' - evaluated here at the default configuration,
exhibiting the divergence from the specified wire protocol, which
requires a 'date' header on every request. -/
theorem C7_default_timestamp_header_name :
    defaultUseDateHeader none = false ∧
    clientBuildHeaders none none "API_KEY" (defaultUseDateHeader none) "Tue, 20 Apr 2016 18:48:24 GMT" =
      [("authorization", "api-key API_KEY"),
       ("timestamp", "Tue, 20 Apr 2016 18:48:24 GMT")] ∧
    headerGet
      (clientBuildHeaders none none "API_KEY" (defaultUseDateHeader none) "Tue, 20 Apr 2016 18:48:24 GMT")
      "date" = none := by
  refine ⟨rfl, rfl, rfl⟩

/-- Every error thrown by the signature-header parse carries one of the
two parse-failure codes. -/
lemma parseSignatureHeader_error_codes (sig : String) (e : JsError)
    (h : parseSignatureHeader sig = Except.error e) :
    e.code = some "SIGNATURE_HEADER_INVALID" ∨ e.code = some "HMAC_ALGORITHM_INVALID" := by
  dsimp only [parseSignatureHeader] at h
  split at h
  · left; cases h; rfl
  · split at h
    · left; cases h; rfl
    · split at h
      · right; cases h; rfl
      · cases h

/-- Every error thrown from the signature step onward carries one of the
three signature-related codes. -/
lemma signatureStep_error_codes (env : AuthEnv) (req : AuthRequest) (data : String)
    (apiKey secret sigHeader : String) (e : JsError)
    (h : signatureStep env req data apiKey secret sigHeader = Except.error e) :
    e.code = some "SIGNATURE_HEADER_INVALID" ∨ e.code = some "HMAC_ALGORITHM_INVALID" ∨
      e.code = some "SIGNATURE_INVALID" := by
  dsimp only [signatureStep] at h
  split at h
  · rename_i x e2 hp
    cases h
    exact (parseSignatureHeader_error_codes sigHeader _ hp).imp id Or.inl
  · split at h
    · cases h; exact Or.inr (Or.inr rfl)
    · cases h


lemma bitlenAux_zero (f : Nat) : bitlenAux f 0 = 0 := by cases f <;> rfl

lemma bitlenAux_spec : ∀ fuel n : Nat, n ≤ fuel → 1 ≤ n →
    1 ≤ bitlenAux fuel n ∧ 2 ^ (bitlenAux fuel n - 1) ≤ n ∧ n < 2 ^ bitlenAux fuel n := by
  intro fuel
  induction fuel with
  | zero => intro n h1 h2; omega
  | succ f ih =>
    intro n hle h1
    match n, h1 with
    | n + 1, _ =>
      have hstep : bitlenAux (f + 1) (n + 1) = bitlenAux f ((n + 1) / 2) + 1 := rfl
      by_cases h2 : (n + 1) / 2 = 0
      · have hn : n = 0 := by omega
        subst hn
        rw [hstep, h2, bitlenAux_zero]
        omega
      · obtain ⟨hL1, hL2, hL3⟩ := ih ((n + 1) / 2) (by omega) (by omega)
        rw [hstep]
        simp only [Nat.add_sub_cancel]
        have he1 : 2 ^ bitlenAux f ((n + 1) / 2) =
            2 * 2 ^ (bitlenAux f ((n + 1) / 2) - 1) := by
          rw [← pow_succ']
          congr 1
          omega
        have he2 : 2 ^ (bitlenAux f ((n + 1) / 2) + 1) =
            2 * 2 ^ bitlenAux f ((n + 1) / 2) := by
          rw [← pow_succ']
        omega

/-- bitlen is exact: a positive n has bitlen n binary digits. -/
lemma bitlen_spec (n : Nat) (h : 1 ≤ n) :
    1 ≤ bitlen n ∧ 2 ^ (bitlen n - 1) ≤ n ∧ n < 2 ^ bitlen n :=
  bitlenAux_spec n n le_rfl h

lemma two_zpow_pos (k : Int) : (0:ℚ) < 2 ^ k := zpow_pos (by norm_num) k

lemma two_zpow_add (i j : Int) : (2:ℚ) ^ (i + j) = 2 ^ i * 2 ^ j :=
  zpow_add₀ (by norm_num) i j

/-- The integer test qltPow2 decides the rational comparison a/b < 2^k. -/
lemma qltPow2_iff (a b : Nat) (hb : 0 < b) (k : Int) :
    qltPow2 a b k = true ↔ (a : ℚ) / b < (2:ℚ) ^ k := by
  have hbq : (0:ℚ) < b := by exact_mod_cast hb
  cases k with
  | ofNat n =>
    simp only [qltPow2, decide_eq_true_eq]
    rw [Int.ofNat_eq_natCast, zpow_natCast, div_lt_iff₀ hbq]
    constructor
    · intro h
      have h1 : (a:ℚ) < ((b * 2 ^ n : ℕ) : ℚ) := by exact_mod_cast h
      push_cast at h1
      linarith
    · intro h
      have h1 : (a:ℚ) < ((b * 2 ^ n : ℕ) : ℚ) := by push_cast; linarith
      exact_mod_cast h1
  | negSucc n =>
    simp only [qltPow2, decide_eq_true_eq]
    rw [zpow_negSucc, div_lt_iff₀ hbq]
    have hp : (0:ℚ) < (2:ℚ) ^ (n + 1) := by positivity
    constructor
    · intro h
      have h1 : ((a * 2 ^ (n + 1) : ℕ) : ℚ) < b := by exact_mod_cast h
      push_cast at h1
      rw [inv_mul_eq_div, lt_div_iff₀ hp]
      linarith
    · intro h
      rw [inv_mul_eq_div, lt_div_iff₀ hp] at h
      have h1 : ((a * 2 ^ (n + 1) : ℕ) : ℚ) < b := by push_cast; linarith
      exact_mod_cast h1

/-- qlog2 is the floor of log2 (a/b). -/
lemma qlog2_spec (a b : Nat) (ha : 1 ≤ a) (hb : 1 ≤ b) :
    (2:ℚ) ^ qlog2 a b ≤ (a:ℚ) / b ∧ (a:ℚ) / b < (2:ℚ) ^ (qlog2 a b + 1) := by
  obtain ⟨hA1, hA2, hA3⟩ := bitlen_spec a ha
  obtain ⟨hB1, hB2, hB3⟩ := bitlen_spec b hb
  obtain ⟨L, hL⟩ : ∃ L, bitlen a = L + 1 := ⟨bitlen a - 1, by omega⟩
  obtain ⟨M, hM⟩ : ∃ M, bitlen b = M + 1 := ⟨bitlen b - 1, by omega⟩
  rw [hL] at hA2 hA3
  rw [hM] at hB2 hB3
  simp only [Nat.add_sub_cancel] at hA2 hB2
  have hbq : (0:ℚ) < b := by exact_mod_cast hb
  have hM2q : (2:ℚ) ^ ((M:ℕ):ℤ) ≤ b := by
    rw [zpow_natCast]
    exact_mod_cast hB2
  have hB3q : (b:ℚ) < (2:ℚ) ^ (((M:ℕ):ℤ) + 1) := by
    rw [show (((M:ℕ):ℤ) + 1) = (((M + 1 : ℕ)) : ℤ) by push_cast; ring, zpow_natCast]
    exact_mod_cast hB3
  have hA2q : (2:ℚ) ^ ((L:ℕ):ℤ) ≤ (a:ℚ) := by
    rw [zpow_natCast]
    exact_mod_cast hA2
  have hA3q : (a:ℚ) < (2:ℚ) ^ (((L:ℕ):ℤ) + 1) := by
    rw [show (((L:ℕ):ℤ) + 1) = (((L + 1 : ℕ)) : ℤ) by push_cast; ring, zpow_natCast]
    exact_mod_cast hA3
  have hup : (a:ℚ) / b < (2:ℚ) ^ ((bitlen a : ℤ) - (bitlen b : ℤ) + 1) := by
    rw [div_lt_iff₀ hbq]
    have hsplit : (2:ℚ) ^ (((L:ℕ):ℤ) + 1) =
        (2:ℚ) ^ ((bitlen a : ℤ) - (bitlen b : ℤ) + 1) * (2:ℚ) ^ ((M:ℕ):ℤ) := by
      rw [← two_zpow_add]
      congr 1
      rw [hL, hM]
      push_cast
      ring
    calc (a:ℚ) < (2:ℚ) ^ (((L:ℕ):ℤ) + 1) := hA3q
      _ = (2:ℚ) ^ ((bitlen a : ℤ) - (bitlen b : ℤ) + 1) * (2:ℚ) ^ ((M:ℕ):ℤ) := hsplit
      _ ≤ (2:ℚ) ^ ((bitlen a : ℤ) - (bitlen b : ℤ) + 1) * b := by
          have := two_zpow_pos ((bitlen a : ℤ) - (bitlen b : ℤ) + 1)
          nlinarith
  have hlo : (2:ℚ) ^ ((bitlen a : ℤ) - (bitlen b : ℤ) - 1) < (a:ℚ) / b := by
    rw [lt_div_iff₀ hbq]
    have hsplit : (2:ℚ) ^ ((bitlen a : ℤ) - (bitlen b : ℤ) - 1) * (2:ℚ) ^ (((M:ℕ):ℤ) + 1) =
        (2:ℚ) ^ ((L:ℕ):ℤ) := by
      rw [← two_zpow_add]
      congr 1
      rw [hL, hM]
      push_cast
      ring
    have hpos := two_zpow_pos ((bitlen a : ℤ) - (bitlen b : ℤ) - 1)
    nlinarith
  unfold qlog2
  split
  · rename_i hq
    have hlt := (qltPow2_iff a b hb _).mp hq
    refine ⟨le_of_lt hlo, ?_⟩
    rw [show (bitlen a : ℤ) - (bitlen b : ℤ) - 1 + 1 = (bitlen a : ℤ) - (bitlen b : ℤ) by ring]
    exact hlt
  · rename_i hq
    have hge : ¬ ((a:ℚ) / b < (2:ℚ) ^ ((bitlen a : ℤ) - (bitlen b : ℤ))) := by
      intro hcon
      rw [(qltPow2_iff a b hb _).mpr hcon] at hq
      exact hq rfl
    exact ⟨not_lt.mp hge, hup⟩


lemma rndDen_pos (a b : Nat) (hb : 1 ≤ b) : 0 < rndDen a b := by
  unfold rndDen
  split
  · exact Nat.mul_pos hb (Nat.pos_pow_of_pos _ (by norm_num))
  · exact hb

/-- The rounded mantissa is within half a unit of the mantissa
fraction, in cleared-denominator form. -/
lemma rndM_dist (a b : Nat) (hD : 0 < rndDen a b) :
    2 * ((rndM a b : ℤ) * rndDen a b - rndNum a b).natAbs ≤ rndDen a b := by
  have hmod : rndNum a b % rndDen a b < rndDen a b := Nat.mod_lt _ hD
  have hN : ((rndNum a b : ℕ) : ℤ) =
      ((rndDen a b : ℕ) : ℤ) * ((rndNum a b / rndDen a b : ℕ) : ℤ) +
        ((rndNum a b % rndDen a b : ℕ) : ℤ) := by
    exact_mod_cast (Nat.div_add_mod (rndNum a b) (rndDen a b)).symm
  have e1 : ((rndNum a b / rndDen a b + 1 : ℕ) : ℤ) * ((rndDen a b : ℕ) : ℤ) -
      ((rndNum a b : ℕ) : ℤ) =
      ((rndDen a b : ℕ) : ℤ) - ((rndNum a b % rndDen a b : ℕ) : ℤ) := by
    rw [hN]
    push_cast
    ring
  have e2 : ((rndNum a b / rndDen a b : ℕ) : ℤ) * ((rndDen a b : ℕ) : ℤ) -
      ((rndNum a b : ℕ) : ℤ) =
      -((rndNum a b % rndDen a b : ℕ) : ℤ) := by
    rw [hN]
    push_cast
    ring
  unfold rndM
  split
  · rename_i h1
    rw [e1]
    omega
  · split
    · rename_i h1 h2
      rw [e2]
      omega
    · split
      · rename_i h1 h2 h3
        rw [e2]
        omega
      · rename_i h1 h2 h3
        rw [e1]
        omega

/-- The mantissa fraction is the input scaled by 2^(-rndE). -/
lemma rnd_ratio (a b : Nat) (hb : 1 ≤ b) :
    (rndNum a b : ℚ) / rndDen a b = ((a:ℚ) / b) * (2:ℚ) ^ (-(rndE a b)) := by
  have hbq : (0:ℚ) < b := by exact_mod_cast hb
  unfold rndNum rndDen
  split
  · rename_i he
    have ht : (((rndE a b).toNat : ℕ) : ℤ) = rndE a b := Int.toNat_of_nonneg he
    have hz : (2:ℚ) ^ (-(rndE a b)) = ((2:ℚ) ^ ((rndE a b).toNat : ℕ))⁻¹ := by
      rw [← zpow_natCast (2:ℚ) (rndE a b).toNat, ht, zpow_neg]
    rw [hz]
    have hp : (0:ℚ) < (2:ℚ) ^ ((rndE a b).toNat : ℕ) := by positivity
    push_cast
    field_simp
  · rename_i he
    have ht : ((((-(rndE a b)).toNat : ℕ)) : ℤ) = -(rndE a b) := Int.toNat_of_nonneg (by omega)
    have hz : (2:ℚ) ^ (-(rndE a b)) = (2:ℚ) ^ (((-(rndE a b)).toNat : ℕ)) := by
      rw [← zpow_natCast (2:ℚ) (-(rndE a b)).toNat, ht]
    rw [hz]
    push_cast
    field_simp

/-- The rounded value is the rounded mantissa scaled back by 2^rndE. -/
lemma rnd53Pos_val (a b : Nat) :
    rnd53Pos a b = (rndM a b : ℚ) * (2:ℚ) ^ (rndE a b) := by
  unfold rnd53Pos
  split
  · rename_i he
    have ht : (((rndE a b).toNat : ℕ) : ℤ) = rndE a b := Int.toNat_of_nonneg he
    push_cast
    rw [← zpow_natCast (2:ℚ) (rndE a b).toNat, ht]
  · rename_i he
    have ht : ((((-(rndE a b)).toNat : ℕ)) : ℤ) = -(rndE a b) := Int.toNat_of_nonneg (by omega)
    rw [Rat.mkRat_eq_divInt, Rat.divInt_eq_div]
    have hz : (2:ℚ) ^ (rndE a b) = ((2:ℚ) ^ (((-(rndE a b)).toNat : ℕ)))⁻¹ := by
      rw [← zpow_natCast (2:ℚ) (-(rndE a b)).toNat, ht, ← zpow_neg, neg_neg]
    rw [hz]
    have hp : (0:ℚ) < (2:ℚ) ^ (((-(rndE a b)).toNat : ℕ)) := by positivity
    push_cast
    field_simp

/-- The mantissa fraction is at least 2^52. -/
lemma rnd_scaled_lo (a b : Nat) (ha : 1 ≤ a) (hb : 1 ≤ b) :
    (2:ℚ) ^ ((52:ℕ):ℤ) ≤ (rndNum a b : ℚ) / rndDen a b := by
  rw [rnd_ratio a b hb]
  have h := (qlog2_spec a b ha hb).1
  have hpos := two_zpow_pos (-(rndE a b))
  have hsplit : (2:ℚ) ^ ((52:ℕ):ℤ) = (2:ℚ) ^ (qlog2 a b) * (2:ℚ) ^ (-(rndE a b)) := by
    rw [← two_zpow_add]
    congr 1
    unfold rndE
    ring
  rw [hsplit]
  exact mul_le_mul_of_nonneg_right h (le_of_lt hpos)

/-- Rounding a positive rational to binary64 changes it by at most one
part in 2^53. -/
lemma rnd53Pos_error (a b : Nat) (ha : 1 ≤ a) (hb : 1 ≤ b) :
    |rnd53Pos a b - (a:ℚ) / b| ≤ ((a:ℚ) / b) / 2 ^ 53 := by
  have hD := rndDen_pos a b hb
  have hDq : (0:ℚ) < rndDen a b := by exact_mod_cast hD
  have hdist := rndM_dist a b hD
  have hmq : |(rndM a b : ℚ) - (rndNum a b : ℚ) / rndDen a b| ≤ 1 / 2 := by
    have hrepr : (rndM a b : ℚ) - (rndNum a b : ℚ) / rndDen a b =
        (((rndM a b : ℤ) * rndDen a b - rndNum a b : ℤ) : ℚ) / rndDen a b := by
      field_simp
    rw [hrepr, abs_div, abs_of_pos hDq]
    rw [div_le_iff₀ hDq]
    have habs : |(((rndM a b : ℤ) * rndDen a b - rndNum a b : ℤ) : ℚ)| =
        ((((rndM a b : ℤ) * rndDen a b - rndNum a b).natAbs : ℕ) : ℚ) := by
      rw [← Int.cast_abs, Int.abs_eq_natAbs]
      exact Int.cast_natCast _
    rw [habs]
    have h2 : (2:ℚ) * (((rndM a b : ℤ) * rndDen a b - rndNum a b).natAbs : ℚ) ≤ rndDen a b := by
      exact_mod_cast hdist
    linarith
  have hval := rnd53Pos_val a b
  have hratio := rnd_ratio a b hb
  have hscl := rnd_scaled_lo a b ha hb
  have hpose := two_zpow_pos (rndE a b)
  have hab : (a:ℚ) / b = ((rndNum a b : ℚ) / rndDen a b) * (2:ℚ) ^ (rndE a b) := by
    rw [hratio, mul_assoc, ← two_zpow_add]
    simp
  rw [hval, hab, ← sub_mul, abs_mul, abs_of_pos hpose]
  have hhalf : (1:ℚ) / 2 ≤ ((rndNum a b : ℚ) / rndDen a b) / 2 ^ 53 := by
    have h52 : (2:ℚ) ^ ((52:ℕ):ℤ) / 2 ^ 53 = 1 / 2 := by
      rw [zpow_natCast]
      norm_num
    calc (1:ℚ) / 2 = (2:ℚ) ^ ((52:ℕ):ℤ) / 2 ^ 53 := h52.symm
      _ ≤ ((rndNum a b : ℚ) / rndDen a b) / 2 ^ 53 := by gcongr
  have hfin : ((rndNum a b : ℚ) / rndDen a b) * (2:ℚ) ^ rndE a b / 2 ^ 53 =
      (((rndNum a b : ℚ) / rndDen a b) / 2 ^ 53) * (2:ℚ) ^ rndE a b := by ring
  rw [hfin]
  calc |(rndM a b : ℚ) - (rndNum a b : ℚ) / rndDen a b| * (2:ℚ) ^ rndE a b
      ≤ (1 / 2) * (2:ℚ) ^ rndE a b := mul_le_mul_of_nonneg_right hmq (le_of_lt hpose)
    _ ≤ (((rndNum a b : ℚ) / rndDen a b) / 2 ^ 53) * (2:ℚ) ^ rndE a b :=
        mul_le_mul_of_nonneg_right hhalf (le_of_lt hpose)

/-- Rounding any rational to binary64 changes it by at most one part in
2^53 of its magnitude. -/
lemma rnd53_error (q : ℚ) : |rnd53 q - q| ≤ |q| / 2 ^ 53 := by
  unfold rnd53
  by_cases h0 : q.num = 0
  · rw [if_pos h0, Rat.num_eq_zero.mp h0]
    simp
  · rw [if_neg h0]
    have hb : 1 ≤ q.den := q.den_pos
    have hdq : (0:ℚ) < (q.den : ℚ) := by exact_mod_cast q.den_pos
    by_cases hneg : q.num < 0
    · rw [if_pos hneg]
      have ha : 1 ≤ q.num.natAbs := by omega
      have hcast : ((q.num.natAbs : ℕ) : ℚ) = -((q.num : ℤ) : ℚ) := by
        have h : ((q.num.natAbs : ℕ) : ℤ) = -q.num := by omega
        calc ((q.num.natAbs : ℕ) : ℚ) = (((q.num.natAbs : ℕ) : ℤ) : ℚ) :=
              (Int.cast_natCast _).symm
          _ = ((-q.num : ℤ) : ℚ) := by rw [h]
          _ = -((q.num : ℤ) : ℚ) := by push_cast; ring
      have hq : ((q.num.natAbs : ℕ) : ℚ) / (q.den : ℚ) = -q := by
        rw [hcast, neg_div, Rat.num_div_den]
      have herr := rnd53Pos_error q.num.natAbs q.den ha hb
      rw [hq] at herr
      have hqneg : q < 0 := by
        rw [← Rat.num_div_den q]
        apply div_neg_of_neg_of_pos _ hdq
        exact_mod_cast hneg
      rw [abs_of_neg hqneg]
      calc |(-rnd53Pos q.num.natAbs q.den) - q|
          = |rnd53Pos q.num.natAbs q.den - -q| := by rw [← abs_neg]; congr 1; ring
        _ ≤ (-q) / 2 ^ 53 := herr
    · rw [if_neg hneg]
      have hpos : 0 < q.num := by omega
      have ha : 1 ≤ q.num.natAbs := by omega
      have hcast : ((q.num.natAbs : ℕ) : ℚ) = ((q.num : ℤ) : ℚ) := by
        have h : ((q.num.natAbs : ℕ) : ℤ) = q.num := by omega
        calc ((q.num.natAbs : ℕ) : ℚ) = (((q.num.natAbs : ℕ) : ℤ) : ℚ) :=
              (Int.cast_natCast _).symm
          _ = ((q.num : ℤ) : ℚ) := by rw [h]
      have hq : ((q.num.natAbs : ℕ) : ℚ) / (q.den : ℚ) = q := by
        rw [hcast, Rat.num_div_den]
      have herr := rnd53Pos_error q.num.natAbs q.den ha hb
      rw [hq] at herr
      have hqpos : 0 < q := by
        rw [← Rat.num_div_den q]
        apply div_pos _ hdq
        exact_mod_cast hpos
      rw [abs_of_pos hqpos]
      exact herr

/-- The cross-multiplied subtraction used by the model agrees with
rational subtraction. -/
lemma ratSub_eq (x y : ℚ) : ratSub x y = x - y := by
  unfold ratSub
  rw [Rat.mkRat_eq_divInt, Rat.divInt_eq_div]
  have hx : ((x.den : ℚ)) ≠ 0 := by
    have := x.den_pos
    positivity
  have hy : ((y.den : ℚ)) ≠ 0 := by
    have := y.den_pos
    positivity
  conv_rhs => rw [← Rat.num_div_den x, ← Rat.num_div_den y]
  push_cast
  field_simp
  ring

/-- The binary64 subtraction model is rounding applied to the exact
difference. -/
lemma fsub64_eq (x y : ℚ) : fsub64 x y = rnd53 (x - y) := by
  unfold fsub64
  rw [ratSub_eq]

/-- mkRat with denominator 1000 is exact rational division by 1000. -/
lemma mkRat_thousand (x : ℤ) : mkRat x 1000 = (x : ℚ) / 1000 := by
  rw [Rat.mkRat_eq_divInt, Rat.divInt_eq_div]
  norm_num

/-- For inputs of at most 2^45 milliseconds in magnitude, the binary64
division by 1000 is within 2^-17 of the exact quotient, and the result
is below 2^36 in magnitude. -/
lemma fdiv1000_close (x : ℤ) (hx : |(x:ℚ)| ≤ 2 ^ 45) :
    |fdiv1000 x - (x:ℚ) / 1000| ≤ 1 / 2 ^ 17 ∧ |fdiv1000 x| ≤ 2 ^ 36 := by
  have hfd : fdiv1000 x = rnd53 ((x:ℚ) / 1000) := by
    unfold fdiv1000
    rw [mkRat_thousand]
  have herr := rnd53_error ((x:ℚ) / 1000)
  have habs : |(x:ℚ)/1000| ≤ 2 ^ 45 / 1000 := by
    rw [abs_div, abs_of_pos (show (0:ℚ) < 1000 by norm_num)]
    gcongr
  have h1 : |fdiv1000 x - (x:ℚ)/1000| ≤ 1 / 2 ^ 17 := by
    rw [hfd]
    calc |rnd53 ((x:ℚ)/1000) - (x:ℚ)/1000| ≤ |(x:ℚ)/1000| / 2 ^ 53 := herr
      _ ≤ (2 ^ 45 / 1000) / 2 ^ 53 := by gcongr
      _ ≤ 1 / 2 ^ 17 := by norm_num
  refine ⟨h1, ?_⟩
  have h2 : |fdiv1000 x| ≤ |(x:ℚ)/1000| + |fdiv1000 x - (x:ℚ)/1000| := by
    calc |fdiv1000 x|
        = |(x:ℚ)/1000 + (fdiv1000 x - (x:ℚ)/1000)| := by congr 1; ring
      _ ≤ |(x:ℚ)/1000| + |fdiv1000 x - (x:ℚ)/1000| := abs_add _ _
  calc |fdiv1000 x| ≤ |(x:ℚ)/1000| + |fdiv1000 x - (x:ℚ)/1000| := h2
    _ ≤ 2 ^ 45 / 1000 + 1 / 2 ^ 17 := add_le_add habs h1
    _ ≤ 2 ^ 36 := by norm_num

/-- For timestamps of at most 2^45 milliseconds in magnitude, the
floating-point (now/1000) - (t/1000) is within 2^-14 of the exact
difference in seconds. -/
lemma fsub_fdiv_close (now t : ℤ) (hn : |(now:ℚ)| ≤ 2 ^ 45) (ht : |(t:ℚ)| ≤ 2 ^ 45) :
    |fsub64 (fdiv1000 now) (fdiv1000 t) - ((now:ℚ) - t) / 1000| ≤ 1 / 2 ^ 14 := by
  obtain ⟨hn1, hn2⟩ := fdiv1000_close now hn
  obtain ⟨ht1, ht2⟩ := fdiv1000_close t ht
  have hNT : |fdiv1000 now - fdiv1000 t| ≤ 2 ^ 37 := by
    calc |fdiv1000 now - fdiv1000 t| = |fdiv1000 now + -(fdiv1000 t)| := by rw [sub_eq_add_neg]
      _ ≤ |fdiv1000 now| + |(-(fdiv1000 t))| := abs_add _ _
      _ = |fdiv1000 now| + |fdiv1000 t| := by rw [abs_neg]
      _ ≤ 2 ^ 36 + 2 ^ 36 := add_le_add hn2 ht2
      _ ≤ 2 ^ 37 := by norm_num
  have herr2 : |fsub64 (fdiv1000 now) (fdiv1000 t) - (fdiv1000 now - fdiv1000 t)| ≤
      2 ^ 37 / 2 ^ 53 := by
    rw [fsub64_eq]
    calc |rnd53 (fdiv1000 now - fdiv1000 t) - (fdiv1000 now - fdiv1000 t)| ≤
        |fdiv1000 now - fdiv1000 t| / 2 ^ 53 := rnd53_error _
      _ ≤ 2 ^ 37 / 2 ^ 53 := by gcongr
  rw [abs_le] at hn1 ht1 herr2
  rw [abs_le]
  constructor
  · linarith [hn1.1, hn1.2, ht1.1, ht1.2, herr2.1, herr2.2]
  · linarith [hn1.1, hn1.2, ht1.1, ht1.2, herr2.1, herr2.2]

/-- The freshness test on a parsed date is exactly the binary64
comparison skew/1000 < now/1000 - t/1000 of the source. -/
lemma dateTooOld_some_iff (t now skew : ℤ) :
    dateTooOld (some t) now skew = true ↔
      fdiv1000 skew < fsub64 (fdiv1000 now) (fdiv1000 t) := by
  simp [dateTooOld]

/-- One full millisecond beyond the permitted window - with all three
quantities at most 2^45 ms in magnitude so the rounding error cannot
bridge the gap - the freshness test rejects. -/
lemma dateTooOld_far_true (t now skew : ℤ)
    (hn : |(now:ℚ)| ≤ 2 ^ 45) (ht : |(t:ℚ)| ≤ 2 ^ 45) (hs : |(skew:ℚ)| ≤ 2 ^ 45)
    (hfar : skew + 1 ≤ now - t) :
    dateTooOld (some t) now skew = true := by
  rw [dateTooOld_some_iff]
  have hD := fsub_fdiv_close now t hn ht
  have hS := (fdiv1000_close skew hs).1
  have hmar : ((skew:ℚ) + 1) ≤ (now:ℚ) - t := by exact_mod_cast hfar
  rw [abs_le] at hD hS
  have hq : ((now:ℚ) - t) / 1000 = (now:ℚ) / 1000 - (t:ℚ) / 1000 := by ring
  linarith [hD.1, hD.2, hS.1, hS.2]

/-- One full millisecond inside the permitted window - with all three
quantities at most 2^45 ms in magnitude - the freshness test passes. -/
lemma dateTooOld_far_false (t now skew : ℤ)
    (hn : |(now:ℚ)| ≤ 2 ^ 45) (ht : |(t:ℚ)| ≤ 2 ^ 45) (hs : |(skew:ℚ)| ≤ 2 ^ 45)
    (hfar : now - t ≤ skew - 1) :
    dateTooOld (some t) now skew = false := by
  have hnot : ¬ (fdiv1000 skew < fsub64 (fdiv1000 now) (fdiv1000 t)) := by
    rw [not_lt]
    have hD := fsub_fdiv_close now t hn ht
    have hS := (fdiv1000_close skew hs).1
    have hmar : (now:ℚ) - t ≤ (skew:ℚ) - 1 := by exact_mod_cast hfar
    rw [abs_le] at hD hS
    linarith [hD.1, hD.2, hS.1, hS.2]
  cases hb : dateTooOld (some t) now skew
  · rfl
  · exact absurd ((dateTooOld_some_iff t now skew).mp hb) hnot

/-- Integer magnitude bounds transfer to the rational casts. -/
lemma int_abs_cast_le (x : ℤ) (h : |x| ≤ 2 ^ 45) : |(x:ℚ)| ≤ 2 ^ 45 := by
  rw [← Int.cast_abs]
  exact_mod_cast h

/-- C9: an unparseable date header (an invalid Date, whose time value is
NaN) never trips the freshness check, because the skew comparison
against NaN is false; such a call cannot fail with DATE_HEADER_INVALID
and proceeds to the signature-parsing step. -/
theorem C9_unparseable_date_passes_freshness :
    ∀ (env : AuthEnv) (req : AuthRequest) (data apiKey secret sigHeader dateHeader : String),
      headerGet req.headers "signature" = some sigHeader →
      headerGet req.headers "date" = some dateHeader →
      env.parseDate dateHeader = none →
      headerChecksStep env req data apiKey secret =
        signatureStep env req data apiKey secret sigHeader ∧
      ∀ e, headerChecksStep env req data apiKey secret = Except.error e →
        e.code ≠ some "DATE_HEADER_INVALID" := by
  intro env req data apiKey secret sigHeader dateHeader hs hd hp
  have hstep : headerChecksStep env req data apiKey secret =
      signatureStep env req data apiKey secret sigHeader := by
    dsimp only [headerChecksStep]
    rw [hs, hd]
    dsimp only
    rw [hp]
    rfl
  refine ⟨hstep, ?_⟩
  intro e he
  rw [hstep] at he
  rcases signatureStep_error_codes env req data apiKey secret sigHeader e he with h | h | h <;>
    simp [h]

/-- C9 witness: a concrete request whose date header does not parse
reaches the signature-parsing step. -/
theorem C9_witness :
    headerChecksStep
      { now := 100000, permittedTimestampSkew := 60000, parseDate := fun _ => none,
        lookup := SecretLookup.direct (some "SECRET") }
      { method := "GET", pathname := "/", query := none,
        headers := [("authorization", "api-key KEY"),
                    ("signature", "simple-hmac-auth sha256 00"),
                    ("date", "not a date")],
        queryApiKey := none }
      "" "KEY" "SECRET" =
    signatureStep
      { now := 100000, permittedTimestampSkew := 60000, parseDate := fun _ => none,
        lookup := SecretLookup.direct (some "SECRET") }
      { method := "GET", pathname := "/", query := none,
        headers := [("authorization", "api-key KEY"),
                    ("signature", "simple-hmac-auth sha256 00"),
                    ("date", "not a date")],
        queryApiKey := none }
      "" "KEY" "SECRET" "simple-hmac-auth sha256 00" :=
  (C9_unparseable_date_passes_freshness
    { now := 100000, permittedTimestampSkew := 60000, parseDate := fun _ => none,
      lookup := SecretLookup.direct (some "SECRET") }
    { method := "GET", pathname := "/", query := none,
      headers := [("authorization", "api-key KEY"),
                  ("signature", "simple-hmac-auth sha256 00"),
                  ("date", "not a date")],
      queryApiKey := none }
    "" "KEY" "SECRET" "simple-hmac-auth sha256 00" "not a date" rfl rfl rfl).1

/-- C10: with an authorization header present the API key comes only
from that header's second space-delimited token - fewer than two tokens
means the authenticate call fails with API_KEY_MISSING no matter what
apiKey value sits in the parsed query - and the query fallback applies
exactly when the header is absent. -/
theorem C10_authorization_header_priority :
    (∀ (a : String) (q : Option String), (jsSplit a ' ').length ≤ 1 →
      apiKeyForRequest (some a) q = none) ∧
    (∀ (a : String) (q q2 : Option String),
      apiKeyForRequest (some a) q = apiKeyForRequest (some a) q2) ∧
    (∀ q : Option String, apiKeyForRequest none q = q) ∧
    (∀ (env : AuthEnv) (req : AuthRequest) (data a : String),
      headerGet req.headers "authorization" = some a →
      (jsSplit a ' ').length ≤ 1 →
      (authenticate env req data).1 =
        Except.error { message := "Missing API Key", code := some "API_KEY_MISSING", time := none }) := by
  refine ⟨?_, ?_, ?_, ?_⟩
  · intro a q h
    dsimp only [apiKeyForRequest]
    rw [if_neg (Nat.not_lt.mpr h)]
  · intro a q q2; rfl
  · intro q; rfl
  · intro env req data a ha hlen
    have hk : apiKeyForRequest (headerGet req.headers "authorization") req.queryApiKey = none := by
      rw [ha]
      dsimp only [apiKeyForRequest]
      rw [if_neg (Nat.not_lt.mpr hlen)]
    have h1 : authResult env req data =
        Except.error { message := "Missing API Key", code := some "API_KEY_MISSING", time := none } := by
      dsimp only [authResult]
      rw [hk]
    dsimp only [authenticate]
    rw [h1]

/-- C10 witness: a one-token authorization header loses to nothing -
even a populated query apiKey - and authenticate fails with
API_KEY_MISSING. -/
theorem C10_witness :
    apiKeyForRequest (some "api-key") (some "QUERY_KEY") = none ∧
    (authenticate
      { now := 0, permittedTimestampSkew := 60000, parseDate := fun _ => none,
        lookup := SecretLookup.direct (some "SECRET") }
      { method := "GET", pathname := "/", query := none,
        headers := [("authorization", "api-key")], queryApiKey := some "QUERY_KEY" }
      "").1 =
      Except.error { message := "Missing API Key", code := some "API_KEY_MISSING", time := none } :=
  ⟨C10_authorization_header_priority.1 "api-key" (some "QUERY_KEY") (by decide),
   C10_authorization_header_priority.2.2.2
     { now := 0, permittedTimestampSkew := 60000, parseDate := fun _ => none,
       lookup := SecretLookup.direct (some "SECRET") }
     { method := "GET", pathname := "/", query := none,
       headers := [("authorization", "api-key")], queryApiKey := some "QUERY_KEY" }
     "" "api-key" rfl (by decide)⟩

/-- C8: the request's authenticated flag, false from before any
validation step, ends true exactly when authenticate resolves with the
success object; every failure path leaves it false. -/
theorem C8_authenticated_flag :
    ∀ (env : AuthEnv) (req : AuthRequest) (data : String),
      (authenticate env req data).1 = authResult env req data ∧
      (authenticate env req data).2 = (authResult env req data).isOk ∧
      ((authenticate env req data).2 = true ↔
        ∃ s, (authenticate env req data).1 = Except.ok s) := by
  intro env req data
  dsimp only [authenticate]
  cases authResult env req data with
  | ok s => exact ⟨rfl, rfl, by simp⟩
  | error e => exact ⟨rfl, rfl, by simp⟩

/-- C2: with a parseable date header, the freshness step rejects with
DATE_HEADER_INVALID - the error carrying the current server time -
exactly when the binary64 comparison now/1000 - date/1000 > skew/1000
of the source holds; because of double rounding this is not literally
"now minus the request time exceeds the permitted skew", but whenever
all three millisecond quantities are at most 2^45 in magnitude the
rounding error stays below one millisecond, so a date of
now - skew + epsilon passes this step, now - skew - epsilon is
rejected, and with a nonnegative skew a future-dated request is never
rejected here. -/
theorem C2_timestamp_freshness_boundary :
    ∀ (env : AuthEnv) (req : AuthRequest) (data apiKey secret sigHeader dateHeader : String)
      (t : Int),
      headerGet req.headers "signature" = some sigHeader →
      headerGet req.headers "date" = some dateHeader →
      env.parseDate dateHeader = some t →
      ((∃ e, headerChecksStep env req data apiKey secret = Except.error e ∧
          e.code = some "DATE_HEADER_INVALID" ∧ e.time = some env.now) ↔
        fdiv1000 env.permittedTimestampSkew <
          fsub64 (fdiv1000 env.now) (fdiv1000 t)) ∧
      (|env.now| ≤ 2 ^ 45 → |t| ≤ 2 ^ 45 → |env.permittedTimestampSkew| ≤ 2 ^ 45 →
        (∀ ε : Int, 0 < ε → t = env.now - env.permittedTimestampSkew + ε →
          ∀ e, headerChecksStep env req data apiKey secret = Except.error e →
            e.code ≠ some "DATE_HEADER_INVALID") ∧
        (∀ ε : Int, 0 < ε → t = env.now - env.permittedTimestampSkew - ε →
          ∃ e, headerChecksStep env req data apiKey secret = Except.error e ∧
            e.code = some "DATE_HEADER_INVALID" ∧ e.time = some env.now) ∧
        (0 ≤ env.permittedTimestampSkew → env.now < t →
          ∀ e, headerChecksStep env req data apiKey secret = Except.error e →
            e.code ≠ some "DATE_HEADER_INVALID")) := by
  intro env req data apiKey secret sigHeader dateHeader t hs hd hp
  have hred : headerChecksStep env req data apiKey secret =
      if dateTooOld (some t) env.now env.permittedTimestampSkew then
        Except.error { message := "Timestamp is too old. Recieved: \x22" ++ dateHeader ++ "\x22",
                       code := some "DATE_HEADER_INVALID", time := some env.now }
      else signatureStep env req data apiKey secret sigHeader := by
    dsimp only [headerChecksStep]
    rw [hs, hd]
    dsimp only
    rw [hp]
  have hpass : dateTooOld (some t) env.now env.permittedTimestampSkew = false →
      ∀ e, headerChecksStep env req data apiKey secret = Except.error e →
        e.code ≠ some "DATE_HEADER_INVALID" := by
    intro hfalse e he
    rw [hred, hfalse] at he
    have he2 : signatureStep env req data apiKey secret sigHeader = Except.error e := he
    rcases signatureStep_error_codes env req data apiKey secret sigHeader e he2 with h | h | h <;>
      simp [h]
  have hfail : dateTooOld (some t) env.now env.permittedTimestampSkew = true →
      ∃ e, headerChecksStep env req data apiKey secret = Except.error e ∧
        e.code = some "DATE_HEADER_INVALID" ∧ e.time = some env.now := by
    intro htrue
    refine ⟨{ message := "Timestamp is too old. Recieved: \x22" ++ dateHeader ++ "\x22",
              code := some "DATE_HEADER_INVALID", time := some env.now }, ?_, rfl, rfl⟩
    rw [hred, htrue]
    rfl
  refine ⟨?_, ?_⟩
  · constructor
    · rintro ⟨e, he, hcode, _⟩
      by_contra hnot
      have hfalse : dateTooOld (some t) env.now env.permittedTimestampSkew = false := by
        cases hb : dateTooOld (some t) env.now env.permittedTimestampSkew
        · rfl
        · exact absurd ((dateTooOld_some_iff t env.now env.permittedTimestampSkew).mp hb) hnot
      exact absurd hcode (hpass hfalse e he)
    · intro hlt
      exact hfail ((dateTooOld_some_iff t env.now env.permittedTimestampSkew).mpr hlt)
  · intro hbn hbt hbs
    have hqn := int_abs_cast_le env.now hbn
    have hqt := int_abs_cast_le t hbt
    have hqs := int_abs_cast_le env.permittedTimestampSkew hbs
    refine ⟨?_, ?_, ?_⟩
    · intro ε hε ht
      apply hpass
      exact dateTooOld_far_false t env.now env.permittedTimestampSkew hqn hqt hqs (by omega)
    · intro ε hε ht
      apply hfail
      exact dateTooOld_far_true t env.now env.permittedTimestampSkew hqn hqt hqs (by omega)
    · intro hskew hfut
      apply hpass
      exact dateTooOld_far_false t env.now env.permittedTimestampSkew hqn hqt hqs (by omega)

/-- C2 witness: a request dated 99 seconds before a server clock of
100000 ms with the default 60-second skew is rejected by the freshness
step with DATE_HEADER_INVALID carrying the server time. -/
theorem C2_witness :
    ∃ e, headerChecksStep
        { now := 100000, permittedTimestampSkew := 60000,
          parseDate := fun s => if s = "OLD" then some 1000 else none,
          lookup := SecretLookup.direct (some "SECRET") }
        { method := "GET", pathname := "/", query := none,
          headers := [("authorization", "api-key KEY"), ("signature", "sig"), ("date", "OLD")],
          queryApiKey := none }
        "" "KEY" "SECRET" = Except.error e ∧
      e.code = some "DATE_HEADER_INVALID" ∧ e.time = some 100000 :=
  (((C2_timestamp_freshness_boundary
    { now := 100000, permittedTimestampSkew := 60000,
      parseDate := fun s => if s = "OLD" then some 1000 else none,
      lookup := SecretLookup.direct (some "SECRET") }
    { method := "GET", pathname := "/", query := none,
      headers := [("authorization", "api-key KEY"), ("signature", "sig"), ("date", "OLD")],
      queryApiKey := none }
    "" "KEY" "SECRET" "sig" "OLD" 1000 rfl rfl rfl).2
      (by decide) (by decide) (by decide)).2.1 39000 (by decide) (by decide))

/-- C2 counterexample to the unamended sentence: at a server time of
1565520022588 ms with a permitted skew of 129876 ms, a request dated
exactly 129876 ms earlier does not exceed the skew - now minus the
request time equals the skew - yet the source's double-precision
comparison (now/1000) - (t/1000) > skew/1000 rounds to true, so the
freshness step rejects it with DATE_HEADER_INVALID. -/
theorem C2_exact_boundary_counterexample :
    (∃ e, headerChecksStep
        { now := 1565520022588, permittedTimestampSkew := 129876,
          parseDate := fun _ => some 1565519892712,
          lookup := SecretLookup.direct (some "SECRET") }
        { method := "GET", pathname := "/", query := none,
          headers := [("authorization", "api-key KEY"), ("signature", "sig"), ("date", "D")],
          queryApiKey := none }
        "" "KEY" "SECRET" = Except.error e ∧
      e.code = some "DATE_HEADER_INVALID") ∧
    ¬ ((129876 : Int) < 1565520022588 - 1565519892712) := by
  constructor
  · exact ⟨{ message := "Timestamp is too old. Recieved: \x22D\x22",
             code := some "DATE_HEADER_INVALID", time := some 1565520022588 }, rfl, rfl⟩
  · decide

/-- C3 counterexample: a secretForKey collaborator that invokes its
callback with (undefined, undefined) makes authenticate fail with
INTERNAL_ERROR_SECRET_DISCOVERY, not API_KEY_UNRECOGNIZED as claimed:
the callback path rejects with the undefined error, and the catch block
wraps an undefined rejection as an internal discovery failure. -/
theorem C3_callback_undefined_counterexample :
    (authenticate
      { now := 0, permittedTimestampSkew := 60000, parseDate := fun _ => none,
        lookup := SecretLookup.callbackInvoked none none }
      { method := "GET", pathname := "/", query := none,
        headers := [("authorization", "api-key KEY")], queryApiKey := none }
      "").1 = Except.error
        { message := "Internal failure while attempting to locate secret for API key \x22KEY\x22",
          code := some "INTERNAL_ERROR_SECRET_DISCOVERY", time := none } ∧
    (some "INTERNAL_ERROR_SECRET_DISCOVERY" : Option String) ≠ some "API_KEY_UNRECOGNIZED" := by
  exact ⟨rfl, by decide⟩

/-- C3 amended: a lookup completing without an error but with an
undefined secret yields API_KEY_UNRECOGNIZED under the direct-return and
promise conventions, but under the callback convention invoked with
(undefined, undefined) it yields INTERNAL_ERROR_SECRET_DISCOVERY. -/
theorem C3_amended_undefined_secret_codes :
    ∀ (env : AuthEnv) (req : AuthRequest) (data apiKey : String),
      apiKeyForRequest (headerGet req.headers "authorization") req.queryApiKey = some apiKey →
      ((env.lookup = SecretLookup.direct none ∨ env.lookup = SecretLookup.promiseResolved none) →
        ∃ e, (authenticate env req data).1 = Except.error e ∧
          e.code = some "API_KEY_UNRECOGNIZED") ∧
      (env.lookup = SecretLookup.callbackInvoked none none →
        ∃ e, (authenticate env req data).1 = Except.error e ∧
          e.code = some "INTERNAL_ERROR_SECRET_DISCOVERY") := by
  intro env req data apiKey hk
  constructor
  · intro hl
    refine ⟨{ message := "Unrecognized API key: " ++ apiKey,
              code := some "API_KEY_UNRECOGNIZED", time := none }, ?_, rfl⟩
    have hres : authResult env req data = Except.error
        { message := "Unrecognized API key: " ++ apiKey,
          code := some "API_KEY_UNRECOGNIZED", time := none } := by
      dsimp only [authResult]
      rw [hk]
      dsimp only
      rcases hl with hl | hl <;> rw [hl] <;> rfl
    dsimp only [authenticate]
    rw [hres]
  · intro hl
    refine ⟨{ message := "Internal failure while attempting to locate secret for API key \x22" ++
                apiKey ++ "\x22",
              code := some "INTERNAL_ERROR_SECRET_DISCOVERY", time := none }, ?_, rfl⟩
    have hres : authResult env req data = Except.error
        { message := "Internal failure while attempting to locate secret for API key \x22" ++
            apiKey ++ "\x22",
          code := some "INTERNAL_ERROR_SECRET_DISCOVERY", time := none } := by
      dsimp only [authResult]
      rw [hk]
      dsimp only
      rw [hl]
      rfl
    dsimp only [authenticate]
    rw [hres]

/-- C3 amended witness: the three conventions evaluated on a concrete
request - direct undefined and promise-resolved undefined give
API_KEY_UNRECOGNIZED, callback (undefined, undefined) gives
INTERNAL_ERROR_SECRET_DISCOVERY. -/
theorem C3_amended_witness :
    (∃ e, (authenticate
        { now := 0, permittedTimestampSkew := 60000, parseDate := fun _ => none,
          lookup := SecretLookup.direct none }
        { method := "GET", pathname := "/", query := none,
          headers := [("authorization", "api-key KEY")], queryApiKey := none }
        "").1 = Except.error e ∧ e.code = some "API_KEY_UNRECOGNIZED") ∧
    (∃ e, (authenticate
        { now := 0, permittedTimestampSkew := 60000, parseDate := fun _ => none,
          lookup := SecretLookup.promiseResolved none }
        { method := "GET", pathname := "/", query := none,
          headers := [("authorization", "api-key KEY")], queryApiKey := none }
        "").1 = Except.error e ∧ e.code = some "API_KEY_UNRECOGNIZED") ∧
    (∃ e, (authenticate
        { now := 0, permittedTimestampSkew := 60000, parseDate := fun _ => none,
          lookup := SecretLookup.callbackInvoked none none }
        { method := "GET", pathname := "/", query := none,
          headers := [("authorization", "api-key KEY")], queryApiKey := none }
        "").1 = Except.error e ∧ e.code = some "INTERNAL_ERROR_SECRET_DISCOVERY") :=
  ⟨(C3_amended_undefined_secret_codes
      { now := 0, permittedTimestampSkew := 60000, parseDate := fun _ => none,
        lookup := SecretLookup.direct none }
      { method := "GET", pathname := "/", query := none,
        headers := [("authorization", "api-key KEY")], queryApiKey := none }
      "" "KEY" rfl).1 (Or.inl rfl),
   (C3_amended_undefined_secret_codes
      { now := 0, permittedTimestampSkew := 60000, parseDate := fun _ => none,
        lookup := SecretLookup.promiseResolved none }
      { method := "GET", pathname := "/", query := none,
        headers := [("authorization", "api-key KEY")], queryApiKey := none }
      "" "KEY" rfl).1 (Or.inr rfl),
   (C3_amended_undefined_secret_codes
      { now := 0, permittedTimestampSkew := 60000, parseDate := fun _ => none,
        lookup := SecretLookup.callbackInvoked none none }
      { method := "GET", pathname := "/", query := none,
        headers := [("authorization", "api-key KEY")], queryApiKey := none }
      "" "KEY" rfl).2 rfl⟩

/-- C4: the signature header is split on spaces; fewer than three tokens
is SIGNATURE_HEADER_INVALID, then a token 0 other than simple-hmac-auth
is SIGNATURE_HEADER_INVALID, then a token 1 outside the supported
algorithm set is HMAC_ALGORITHM_INVALID - checked in that order - and on
success token 2 is the hex digest the final step compares against the
recomputed HMAC. -/
theorem C4_signature_header_checks :
    ∀ sig : String,
      ((jsSplit sig ' ').length < 3 →
        ∃ e, parseSignatureHeader sig = Except.error e ∧
          e.code = some "SIGNATURE_HEADER_INVALID") ∧
      (3 ≤ (jsSplit sig ' ').length → (jsSplit sig ' ').getD 0 "" ≠ "simple-hmac-auth" →
        ∃ e, parseSignatureHeader sig = Except.error e ∧
          e.code = some "SIGNATURE_HEADER_INVALID") ∧
      (3 ≤ (jsSplit sig ' ').length → (jsSplit sig ' ').getD 0 "" = "simple-hmac-auth" →
        algorithms.contains ((jsSplit sig ' ').getD 1 "") = false →
        ∃ e, parseSignatureHeader sig = Except.error e ∧
          e.code = some "HMAC_ALGORITHM_INVALID") ∧
      (3 ≤ (jsSplit sig ' ').length → (jsSplit sig ' ').getD 0 "" = "simple-hmac-auth" →
        algorithms.contains ((jsSplit sig ' ').getD 1 "") = true →
        parseSignatureHeader sig = Except.ok
          ((jsSplit sig ' ').getD 0 "", (jsSplit sig ' ').getD 1 "", (jsSplit sig ' ').getD 2 "")) ∧
      (∀ (env : AuthEnv) (req : AuthRequest) (data apiKey secret p a s2 : String),
        parseSignatureHeader sig = Except.ok (p, a, s2) →
        signatureStep env req data apiKey secret sig =
          if s2 != hmacHex a secret
              (canonicalize req.method req.pathname req.query req.headers (some data)) then
            Except.error { message := "Signature is invalid.",
                           code := some "SIGNATURE_INVALID", time := none }
          else
            Except.ok { apiKey := apiKey, secret := secret, signature := s2 }) := by
  intro sig
  refine ⟨?_, ?_, ?_, ?_, ?_⟩
  · intro h
    dsimp only [parseSignatureHeader]
    rw [if_pos h]
    exact ⟨_, rfl, rfl⟩
  · intro h3 hp
    dsimp only [parseSignatureHeader]
    rw [if_neg (Nat.not_lt.mpr h3), if_pos (bne_iff_ne.mpr hp)]
    exact ⟨_, rfl, rfl⟩
  · intro h3 hp halg
    have hbne : (((jsSplit sig ' ').getD 0 "") != "simple-hmac-auth") = false := by
      rw [hp]; rfl
    have halg2 : (!algorithms.contains ((jsSplit sig ' ').getD 1 "")) = true := by rw [halg]; rfl
    dsimp only [parseSignatureHeader]
    rw [if_neg (Nat.not_lt.mpr h3), hbne, halg2]
    exact ⟨_, rfl, rfl⟩
  · intro h3 hp halg
    have hbne : (((jsSplit sig ' ').getD 0 "") != "simple-hmac-auth") = false := by
      rw [hp]; rfl
    have halg2 : (!algorithms.contains ((jsSplit sig ' ').getD 1 "")) = false := by rw [halg]; rfl
    dsimp only [parseSignatureHeader]
    rw [if_neg (Nat.not_lt.mpr h3), hbne, halg2]
    rfl
  · intro env req data apiKey secret p a s2 hok
    dsimp only [signatureStep]
    rw [hok]

/-- C4 witness: the three failure shapes and the success shape on
concrete headers, and the final comparison of token 2 against the
recomputed digest rejecting with SIGNATURE_INVALID. -/
theorem C4_witness :
    (∃ e, parseSignatureHeader "justonetoken" = Except.error e ∧
      e.code = some "SIGNATURE_HEADER_INVALID") ∧
    (∃ e, parseSignatureHeader "wrong-tag sha256 aa" = Except.error e ∧
      e.code = some "SIGNATURE_HEADER_INVALID") ∧
    (∃ e, parseSignatureHeader "simple-hmac-auth md5 aa" = Except.error e ∧
      e.code = some "HMAC_ALGORITHM_INVALID") ∧
    parseSignatureHeader "simple-hmac-auth sha256 aa" =
      Except.ok ("simple-hmac-auth", "sha256", "aa") ∧
    signatureStep
      { now := 0, permittedTimestampSkew := 60000, parseDate := fun _ => none,
        lookup := SecretLookup.direct (some "SECRET") }
      { method := "GET", pathname := "/", query := none, headers := [], queryApiKey := none }
      "" "KEY" "SECRET" "simple-hmac-auth sha256 aa" =
      Except.error { message := "Signature is invalid.",
                     code := some "SIGNATURE_INVALID", time := none } :=
  ⟨(C4_signature_header_checks "justonetoken").1 (by decide),
   (C4_signature_header_checks "wrong-tag sha256 aa").2.1 (by decide) (by decide),
   (C4_signature_header_checks "simple-hmac-auth md5 aa").2.2.1 (by decide) (by decide) (by decide),
   (C4_signature_header_checks "simple-hmac-auth sha256 aa").2.2.2.1 (by decide) (by decide) (by decide),
   ((C4_signature_header_checks "simple-hmac-auth sha256 aa").2.2.2.2
      { now := 0, permittedTimestampSkew := 60000, parseDate := fun _ => none,
        lookup := SecretLookup.direct (some "SECRET") }
      { method := "GET", pathname := "/", query := none, headers := [], queryApiKey := none }
      "" "KEY" "SECRET" "simple-hmac-auth" "sha256" "aa" rfl).trans (by rfl)⟩

/-! ### Order properties of the header-key sort relation -/

/-- The lexicographic comparison is total. -/
lemma charListLeb_total : ∀ as bs : List Char, charListLeb as bs = true ∨ charListLeb bs as = true := by
  intro as
  induction as with
  | nil => intro bs; left; rfl
  | cons a as ih =>
    intro bs
    cases bs with
    | nil => right; rfl
    | cons b bs =>
      simp only [charListLeb]
      by_cases hab : a < b
      · left; rw [if_pos hab]
      · by_cases hba : b < a
        · right; rw [if_pos hba]
        · rw [if_neg hab, if_neg hba, if_neg hba, if_neg hab]
          exact ih bs

/-- The lexicographic comparison is transitive. -/
lemma charListLeb_trans : ∀ as bs cs : List Char,
    charListLeb as bs = true → charListLeb bs cs = true → charListLeb as cs = true := by
  intro as
  induction as with
  | nil => intro bs cs h1 h2; rfl
  | cons a as ih =>
    intro bs cs h1 h2
    cases bs with
    | nil => exact Bool.noConfusion h1
    | cons b bs =>
      cases cs with
      | nil => exact Bool.noConfusion h2
      | cons c cs =>
        simp only [charListLeb] at h1 h2 ⊢
        by_cases hab : a < b
        · by_cases hbc : b < c
          · rw [if_pos (lt_trans hab hbc)]
          · by_cases hcb : c < b
            · rw [if_neg hbc, if_pos hcb] at h2
              exact Bool.noConfusion h2
            · have hbceq : b = c := le_antisymm (not_lt.mp hcb) (not_lt.mp hbc)
              rw [← hbceq, if_pos hab]
        · rw [if_neg hab] at h1
          by_cases hba : b < a
          · rw [if_pos hba] at h1; exact Bool.noConfusion h1
          · rw [if_neg hba] at h1
            have habeq : a = b := le_antisymm (not_lt.mp hba) (not_lt.mp hab)
            subst habeq
            by_cases hac : a < c
            · rw [if_pos hac]
            · rw [if_neg hac] at h2 ⊢
              by_cases hca : c < a
              · rw [if_pos hca] at h2; exact Bool.noConfusion h2
              · rw [if_neg hca] at h2 ⊢
                exact ih bs cs h1 h2

/-- The lexicographic comparison is antisymmetric. -/
lemma charListLeb_antisymm : ∀ as bs : List Char,
    charListLeb as bs = true → charListLeb bs as = true → as = bs := by
  intro as
  induction as with
  | nil =>
    intro bs h1 h2
    cases bs with
    | nil => rfl
    | cons b bs => exact Bool.noConfusion h2
  | cons a as ih =>
    intro bs h1 h2
    cases bs with
    | nil => exact Bool.noConfusion h1
    | cons b bs =>
      simp only [charListLeb] at h1 h2
      by_cases hab : a < b
      · rw [if_neg (lt_asymm hab), if_pos hab] at h2
        exact Bool.noConfusion h2
      · by_cases hba : b < a
        · rw [if_neg hab, if_pos hba] at h1
          exact Bool.noConfusion h1
        · rw [if_neg hab, if_neg hba] at h1
          rw [if_neg hba, if_neg hab] at h2
          have habeq : a = b := le_antisymm (not_lt.mp hba) (not_lt.mp hab)
          rw [habeq, ih bs h1 h2]

instance : IsTotal String strLe := ⟨fun a b => charListLeb_total a.data b.data⟩

instance : IsTrans String strLe := ⟨fun a b c => charListLeb_trans a.data b.data c.data⟩

instance : IsAntisymm String strLe :=
  ⟨fun a b hab hba => by
    cases a with
    | mk as =>
      cases b with
      | mk bs => exact congrArg String.mk (charListLeb_antisymm as bs hab hba)⟩

/-! ### Characterization of cleanHeaders for header-map invariance -/

/-- The header entries with lower-cased keys, in original order. -/
def lowerEntries (h : List (String × String)) : List (String × String) :=
  h.map (fun p => (jsToLower p.1, p.2))

/-- Whether canonicalize retains an already lower-cased header entry. -/
def keepHeader (p : String × String) : Bool :=
  headerWhitelist.contains p.1 && !(p.1 = "content-length" && p.2 = "0")

/-- Assigning a key absent from the object appends the binding. -/
lemma jsObjectSet_of_not_mem (l : List (String × String)) (k v : String)
    (h : l.any (fun p => p.1 = k) = false) : jsObjectSet l k v = l ++ [(k, v)] := by
  unfold jsObjectSet
  rw [h]
  rfl

/-- One cleanHeaders iteration, phrased through keepHeader. -/
lemma cleanHeadersStep_eq (acc : List (String × String)) (p : String × String) :
    cleanHeadersStep acc p =
      if keepHeader (jsToLower p.1, p.2) then jsObjectSet acc (jsToLower p.1) p.2 else acc := by
  dsimp only [cleanHeadersStep, keepHeader]
  cases hc : headerWhitelist.contains (jsToLower p.1)
  · rfl
  · cases hz : (decide (jsToLower p.1 = "content-length") && decide (p.2 = "0"))
    · rfl
    · rfl

/-- The cleanHeaders fold, when the lower-cased keys are distinct and
none is already bound in the accumulator, appends exactly the retained
lower-cased entries in order. -/
lemma cleanHeaders_go : ∀ (h : List (String × String)) (acc : List (String × String)),
    (∀ k, k ∈ (lowerEntries h).map Prod.fst → acc.any (fun p => p.1 = k) = false) →
    ((lowerEntries h).map Prod.fst).Nodup →
    h.foldl cleanHeadersStep acc = acc ++ (lowerEntries h).filter keepHeader := by
  intro h
  induction h with
  | nil => intro acc _ _; simp [lowerEntries]
  | cons p h ih =>
    intro acc hacc hnd
    have hle : lowerEntries (p :: h) = (jsToLower p.1, p.2) :: lowerEntries h := rfl
    rw [hle, List.map_cons] at hacc hnd
    rw [hle]
    have hk0 : acc.any (fun q => q.1 = jsToLower p.1) = false :=
      hacc _ (List.mem_cons_self _ _)
    have hknotin : jsToLower p.1 ∉ (lowerEntries h).map Prod.fst := (List.nodup_cons.mp hnd).1
    have hnd1 : ((lowerEntries h).map Prod.fst).Nodup := (List.nodup_cons.mp hnd).2
    rw [List.foldl_cons, cleanHeadersStep_eq]
    cases hk : keepHeader (jsToLower p.1, p.2)
    · have hstep : (if (false : Bool) = true then jsObjectSet acc (jsToLower p.1) p.2 else acc) = acc := rfl
      rw [hstep, List.filter_cons, hk]
      have hfilter : (if (false : Bool) = true then
          (jsToLower p.1, p.2) :: (lowerEntries h).filter keepHeader
          else (lowerEntries h).filter keepHeader) = (lowerEntries h).filter keepHeader := rfl
      rw [hfilter]
      exact ih acc (fun k hkm => hacc k (List.mem_cons_of_mem _ hkm)) hnd1
    · have hstep : (if (true : Bool) = true then jsObjectSet acc (jsToLower p.1) p.2 else acc) =
          jsObjectSet acc (jsToLower p.1) p.2 := rfl
      rw [hstep, jsObjectSet_of_not_mem acc _ p.2 hk0, List.filter_cons, hk]
      have hfilter : (if (true : Bool) = true then
          (jsToLower p.1, p.2) :: (lowerEntries h).filter keepHeader
          else (lowerEntries h).filter keepHeader) =
          (jsToLower p.1, p.2) :: (lowerEntries h).filter keepHeader := rfl
      rw [hfilter]
      have hacc2 : ∀ k, k ∈ (lowerEntries h).map Prod.fst →
          (acc ++ [(jsToLower p.1, p.2)]).any (fun q => q.1 = k) = false := by
        intro k hkm
        rw [List.any_append]
        have h1 : acc.any (fun q => q.1 = k) = false := hacc k (List.mem_cons_of_mem _ hkm)
        have h2 : ([(jsToLower p.1, p.2)].any (fun q => q.1 = k)) = false := by
          simp only [List.any_cons, List.any_nil, Bool.or_false]
          rw [decide_eq_false_iff_not]
          intro hEq
          exact hknotin (hEq ▸ hkm)
        rw [h1, h2]
        rfl
      rw [ih (acc ++ [(jsToLower p.1, p.2)]) hacc2 hnd1, List.append_assoc]
      rfl

/-- cleanHeaders on a map with distinct case-insensitive names is the
filtered list of lower-cased entries, in order. -/
lemma cleanHeaders_eq_filter (h : List (String × String))
    (hnd : ((lowerEntries h).map Prod.fst).Nodup) :
    cleanHeaders h = (lowerEntries h).filter keepHeader :=
  (cleanHeaders_go h [] (fun _ _ => rfl) hnd).trans (List.nil_append _)

/-- Key lookup by find? is stable under permutation when keys are
distinct. -/
lemma find?_key_eq_of_perm (c1 c2 : List (String × String)) (hperm : List.Perm c1 c2)
    (hnd : (c1.map Prod.fst).Nodup) (k : String) :
    c1.find? (fun p => p.1 = k) = c2.find? (fun p => p.1 = k) := by
  cases h1 : c1.find? (fun p => p.1 = k) with
  | none =>
    cases h2 : c2.find? (fun p => p.1 = k) with
    | none => rfl
    | some b =>
      have hpb := List.find?_some h2
      have hmb := List.mem_of_find?_eq_some h2
      exact absurd hpb (List.find?_eq_none.mp h1 b (hperm.mem_iff.mpr hmb))
  | some a =>
    have hpa := List.find?_some h1
    have hma := List.mem_of_find?_eq_some h1
    cases h2 : c2.find? (fun p => p.1 = k) with
    | none =>
      exact absurd hpa (List.find?_eq_none.mp h2 a (hperm.mem_iff.mp hma))
    | some b =>
      have hpb := List.find?_some h2
      have hmb1 : b ∈ c1 := hperm.mem_iff.mpr (List.mem_of_find?_eq_some h2)
      have hfst : a.1 = b.1 := by
        have ha2 : a.1 = k := of_decide_eq_true hpa
        have hb2 : b.1 = k := of_decide_eq_true hpb
        rw [ha2, hb2]
      rw [List.inj_on_of_nodup_map hnd hma hmb1 hfst]

/-- C6: the canonical string depends on the header map only through the
mapping of case-insensitive names to values - two maps binding the same
set of names (each at most once) to equal values canonicalize to
byte-identical strings regardless of casing or insertion order - and
canonicalize is a pure function of its inputs. -/
theorem C6_canonicalize_header_invariance :
    (∀ (method uri : String) (q : Option String) (h1 h2 : List (String × String))
        (data : Option String),
      List.Perm (lowerEntries h1) (lowerEntries h2) →
      ((lowerEntries h1).map Prod.fst).Nodup →
      canonicalize method uri q h1 data = canonicalize method uri q h2 data) ∧
    (∀ (method uri : String) (q : Option String) (h : List (String × String))
        (data : Option String),
      canonicalize method uri q h data = canonicalize method uri q h data) := by
  constructor
  · intro method uri q h1 h2 data hperm hnd1
    have hnd2 : ((lowerEntries h2).map Prod.fst).Nodup :=
      ((hperm.map Prod.fst).nodup_iff).mp hnd1
    have hpermf : List.Perm ((lowerEntries h1).filter keepHeader)
        ((lowerEntries h2).filter keepHeader) := hperm.filter keepHeader
    have hndf1 : (((lowerEntries h1).filter keepHeader).map Prod.fst).Nodup :=
      hnd1.sublist ((List.filter_sublist _).map Prod.fst)
    have hkeys : List.Perm (((lowerEntries h1).filter keepHeader).map Prod.fst)
        (((lowerEntries h2).filter keepHeader).map Prod.fst) := hpermf.map Prod.fst
    have hsort : jsSortStrings (((lowerEntries h1).filter keepHeader).map Prod.fst) =
        jsSortStrings (((lowerEntries h2).filter keepHeader).map Prod.fst) := by
      unfold jsSortStrings
      exact List.eq_of_perm_of_sorted
        (((List.perm_insertionSort strLe _).trans hkeys).trans
          (List.perm_insertionSort strLe _).symm)
        (List.sorted_insertionSort strLe _)
        (List.sorted_insertionSort strLe _)
    have hget : ∀ k, jsObjectGet ((lowerEntries h1).filter keepHeader) k =
        jsObjectGet ((lowerEntries h2).filter keepHeader) k := by
      intro k
      unfold jsObjectGet
      rw [find?_key_eq_of_perm _ _ hpermf hndf1 k]
    have hmap : (jsSortStrings (((lowerEntries h2).filter keepHeader).map Prod.fst)).map
        (fun key => key ++ ":" ++ jsTrim (jsObjectGet ((lowerEntries h1).filter keepHeader) key)) =
        (jsSortStrings (((lowerEntries h2).filter keepHeader).map Prod.fst)).map
        (fun key => key ++ ":" ++ jsTrim (jsObjectGet ((lowerEntries h2).filter keepHeader) key)) :=
      List.map_congr_left (fun k _ => by rw [hget k])
    dsimp only [canonicalize]
    rw [cleanHeaders_eq_filter h1 hnd1, cleanHeaders_eq_filter h2 hnd2, hsort, hmap]
  · intro method uri q h data
    rfl

/-- C6 witness: reordering the headers and changing the casing of a name
leaves the canonical string unchanged. -/
theorem C6_witness :
    canonicalize "get" "/x" none [("Date", "d"), ("authorization", "a")] none =
      canonicalize "get" "/x" none [("authorization", "a"), ("DATE", "d")] none :=
  C6_canonicalize_header_invariance.1 "get" "/x" none
    [("Date", "d"), ("authorization", "a")] [("authorization", "a"), ("DATE", "d")] none
    (by decide) (by decide)
